import Mathlib

/-!
Verification development for the live-merge-up repository
(`src/checker.py`, `src/merger.py`, `src/config.py`).

The Python code is shallowly embedded: times are `Int` seconds, file paths
and folder names are `String`s, the ffprobe stream-inspection oracle is a
parameter `probe : String → Option String` (`none` = the segment has both a
video and an audio stream, `some msg` = the error message produced for an
invalid segment, mirroring `check_ts_file` which returns either
`(ts_file, None)` or `(None, msg)`), and the ffmpeg concatenation oracle is
a parameter `oracle : String → Bool` (exit status by output name).
-/

/-! ## Configuration constants (from `src/config.py`) -/

def MIN_FILES_FOR_CHECK : Nat := 5

def FILE_STABLE_TIME : Int := 5

def LIVE_INACTIVE_THRESHOLD : Int := 90

def LIVE_CHECK_INTERVAL : Int := 60

def MIN_FOLDER_AGE_FOR_FINALIZE : Int := 30

def MAX_CONCURRENT_FOLDERS : Nat := 5

def FOLDER_CLEANUP_DELAY : Int := 60

def ENABLE_SUBTITLE_BASED_MERGE : Bool := true

/-- Modelled from the spec: the constant `FINAL_INACTIVE_THRESHOLD` is
referenced by `src/checker.py` (lines 66 and 421) but is defined nowhere in
`src/` (not in `config.py`); the spec, section 4.3, describes it as the
file-inactivity grace window with default 90 seconds. -/
def FINAL_INACTIVE_THRESHOLD : Int := 90

/-! ## Segments and per-session validation state (`src/checker.py`) -/

/-- One `*.ts` segment file inside a session directory: its absolute path
(`name`) and its last-modified time. -/
structure SegFile where
  name : String
  mtime : Int
deriving DecidableEq, Repr

/-- The mutable per-session record kept in `folder_states` by `checker.py`:
`checked_files` (a set of segment identities), `valid_files` (appended in
validation-completion order) and `error_logs`. -/
structure SessionState where
  checkedFiles : List String
  validFiles : List String
  errorLogs : List String
deriving DecidableEq, Repr

def emptySession : SessionState := ⟨[], [], []⟩

/-- `is_file_stable` (checker.py line 47): unmodified for longer than the
quiet window. -/
def is_file_stable (now : Int) (mtime : Int) (stableTime : Int) : Bool :=
  decide (now - mtime > stableTime)

/-- `get_unchecked_stable_files` (checker.py line 217): segments that are
not yet in the checked set and are stable. -/
def get_unchecked_stable_files (files : List SegFile) (checked : List String)
    (now : Int) : List SegFile :=
  files.filter (fun f => !(checked.contains f.name) && is_file_stable now f.mtime FILE_STABLE_TIME)

/-- `check_live_folder_incremental` (checker.py line 230): each arriving
result is marked checked, then recorded valid or invalid.  `arrival` is the
`as_completed` completion order of the scheduled batch. -/
def check_live_folder_incremental (probe : String → Option String) :
    List SegFile → SessionState → SessionState
  | [], st => st
  | f :: t, st =>
    let s1 := { st with checkedFiles := st.checkedFiles ++ [f.name] }
    match probe f.name with
    | none =>
      check_live_folder_incremental probe t { s1 with validFiles := s1.validFiles ++ [f.name] }
    | some m =>
      check_live_folder_incremental probe t { s1 with errorLogs := s1.errorLogs ++ [m] }

/-- The result-merging loop inside `finalize_live_check` (checker.py lines
275-285).  Unlike the incremental scan it does NOT add the processed files
to the checked set. -/
def finalizeScan (probe : String → Option String) :
    List SegFile → SessionState → SessionState
  | [], st => st
  | f :: t, st =>
    match probe f.name with
    | none => finalizeScan probe t { st with validFiles := st.validFiles ++ [f.name] }
    | some m => finalizeScan probe t { st with errorLogs := st.errorLogs ++ [m] }

/-- The files scheduled for the final check (checker.py line 270): every
segment not in the checked set, stable or not. -/
def finalizeUnchecked (dirFiles : List SegFile) (st : SessionState) : List SegFile :=
  dirFiles.filter (fun f => !(st.checkedFiles.contains f.name))

/-- A single quote character, used by the manifest line format. -/
def sqc : String := String.singleton (Char.ofNat 39)

/-- One manifest line (checker.py line 297): `file '<absolute path>'`
followed by a newline. -/
def manifestLine (p : String) : String := "file " ++ sqc ++ p ++ sqc ++ "\n"

/-- Lexicographic comparison of character lists by code point, the order
Python uses when sorting the segment path strings. -/
def charListLe : List Char → List Char → Bool
  | [], _ => true
  | _ :: _, [] => false
  | a :: as, b :: bs =>
    if a.val.toNat < b.val.toNat then true
    else if b.val.toNat < a.val.toNat then false
    else charListLe as bs

/-- String order used to model Python's `list.sort()` on the segment
paths. -/
def strLe : String → String → Prop := fun a b => charListLe a.data b.data = true

instance : DecidableRel strLe := fun a b =>
  inferInstanceAs (Decidable (charListLe a.data b.data = true))

/-- The companion error-report file (checker.py lines 302-309): the header
states the detection time, the total / valid / error counts, and the body
is the list of reason lines.  The detection timestamp is wall-clock text
and is not modelled. -/
structure LiveReport where
  total : Nat
  valid : Nat
  errors : Nat
  reasons : List String
deriving DecidableEq, Repr

/-- Result of `finalize_live_check`: the boolean return value, the mutated
session record, the manifest lines written to `filelist.txt` (`none` when no
manifest file is written) and the error report (`none` when not written). -/
structure FinalizeResult where
  success : Bool
  state : SessionState
  manifest : Option (List String)
  report : Option LiveReport
deriving DecidableEq, Repr

/-- `finalize_live_check` (checker.py lines 262-312).  `dirFiles` is the
directory listing `ts_dir.glob("*.ts")` at finalization time and `arrival`
the completion order of the remaining unchecked files. -/
def finalize_live_check (probe : String → Option String) (dirFiles : List SegFile)
    (st : SessionState) (arrival : List SegFile) : FinalizeResult :=
  let st1 := finalizeScan probe arrival st
  if st1.validFiles.isEmpty then
    { success := false, state := st1, manifest := none, report := none }
  else
    let sorted := List.insertionSort strLe st1.validFiles
    let rep :=
      if st1.errorLogs.isEmpty then none
      else some { total := dirFiles.length, valid := sorted.length,
                  errors := st1.errorLogs.length, reasons := st1.errorLogs }
    { success := true, state := { st1 with validFiles := sorted },
      manifest := some (sorted.map manifestLine), report := rep }

/-! ## Merge coordinator (`src/merger.py`) -/

/-- A session directory as seen by the merger: its name, its directory
modification time, whether `filelist.txt` exists, and that file's lines. -/
structure MFolder where
  name : String
  mtime : Int
  hasFilelist : Bool
  filelistLines : List String
deriving DecidableEq, Repr

/-- The on-disk world the merger reads and writes: the session folders
under `PARENT_DIR`, the set of `OUTPUT_DIR/<name>.mp4` artifacts (by name,
without extension), the folder names whose matching `.ass` subtitle file
exists (abstracting the date-derived subtitle directory), the set of
per-session merge markers, and the cumulative number of ffmpeg
concatenation invocations. -/
structure MergeWorld where
  folders : List MFolder
  outputs : List String
  subtitles : List String
  markers : List String
  oracleCalls : Nat
deriving DecidableEq, Repr

/-- Folder order used by `candidate_folders.sort(key=lambda x: x.stat().st_mtime)`
(merger.py line 104). -/
def mtimeLeM : MFolder → MFolder → Prop := fun a b => a.mtime ≤ b.mtime

instance : DecidableRel mtimeLeM := fun a b => inferInstanceAs (Decidable (a.mtime ≤ b.mtime))

/-- `should_merge_folders` (merger.py line 54): the first folder has a
matching subtitle file and the second does not. -/
def should_merge_folders (subs : List String) (f1 f2 : MFolder) : Bool :=
  ENABLE_SUBTITLE_BASED_MERGE && subs.contains f1.name && !(subs.contains f2.name)

/-- One entry of the `ready_items` list built by `find_ready_folders`:
`combined = true` for a two-session merge unit.  `filelistExists` records
whether the item's filelist path exists at merge time (the temp merged
filelist has just been written for combined items; a single item points at
the folder's own `filelist.txt`). -/
structure ReadyItem where
  combined : Bool
  filelist : List String
  name : String
  folderNames : List String
  filelistExists : Bool
deriving DecidableEq, Repr

/-- Item for a folder processed on its own (merger.py lines 126-131). -/
def singleItem (f : MFolder) : ReadyItem :=
  { combined := false, filelist := f.filelistLines, name := f.name,
    folderNames := [f.name], filelistExists := f.hasFilelist }

/-- Item for two folders combined via `create_merged_filelist`
(merger.py lines 76-88 and 114-121). -/
def mergedItemOf (f1 f2 : MFolder) : ReadyItem :=
  { combined := true, filelist := f1.filelistLines ++ f2.filelistLines,
    name := f1.name ++ "_" ++ f2.name ++ "_merged",
    folderNames := [f1.name, f2.name], filelistExists := true }

/-- The pairing loop of `find_ready_folders` (merger.py lines 107-132). -/
def pairUp (subs : List String) : List MFolder → List ReadyItem
  | [] => []
  | [f] => [singleItem f]
  | f1 :: f2 :: rest =>
    if should_merge_folders subs f1 f2 then
      mergedItemOf f1 f2 :: pairUp subs rest
    else
      singleItem f1 :: pairUp subs (f2 :: rest)

/-- The candidate enumeration of `find_ready_folders` (merger.py lines
95-104): folders whose `filelist.txt` exists and whose own output artifact
does not, sorted by folder mtime. -/
def candidateFolders (w : MergeWorld) : List MFolder :=
  List.insertionSort mtimeLeM
    (w.folders.filter (fun f => f.hasFilelist && !(w.outputs.contains f.name)))

/-- `find_ready_folders` (merger.py line 90). -/
def find_ready_folders (w : MergeWorld) : List ReadyItem :=
  pairUp w.subtitles (candidateFolders w)

/-- `merge_item` (merger.py lines 136-188) for a single uncontended
process: missing filelist skips; an existing output short-circuits to
success (both before taking the lock and again under it); otherwise ffmpeg
runs once and on exit code 0 the output artifact appears.  Returns the
boolean result and the updated world. -/
def merge_item (oracle : String → Bool) (w : MergeWorld) (item : ReadyItem) :
    Bool × MergeWorld :=
  if !item.filelistExists then (false, w)
  else if w.outputs.contains item.name then (true, w)
  else
    let w1 := { w with oracleCalls := w.oracleCalls + 1 }
    if oracle item.name then (true, { w1 with outputs := item.name :: w1.outputs })
    else (false, w1)

/-- The accumulation loop of `merge_all_ready` (merger.py lines 200-203). -/
def processItems (oracle : String → Bool) :
    List ReadyItem → MergeWorld → Nat × MergeWorld
  | [], w => (0, w)
  | i :: t, w =>
    let r := merge_item oracle w i
    let rest := processItems oracle t r.2
    ((if r.1 then 1 else 0) + rest.1, rest.2)

/-- `merge_all_ready` (merger.py lines 190-206): one merge pass.  Returns
the reported success count and the updated world. -/
def merge_all_ready (oracle : String → Bool) (w : MergeWorld) : Nat × MergeWorld :=
  processItems oracle (find_ready_folders w) w

/-! ## The tracking loop (`src/checker.py`, `main_loop`) -/

/-- A session directory as seen by the tracking loop: name, creation time
(`st_ctime`), directory modification time (`st_mtime`), its `*.ts`
segment files, and whether `filelist.txt` already exists. -/
structure LiveFolder where
  name : String
  ctime : Int
  mtime : Int
  tsFiles : List SegFile
  hasManifest : Bool
deriving DecidableEq, Repr

/-- `has_been_merged` (checker.py line 27). -/
def has_been_merged (f : LiveFolder) : Bool := f.hasManifest

/-- `has_files_to_check` (checker.py line 32). -/
def has_files_to_check (f : LiveFolder) : Bool :=
  decide (f.tsFiles.length ≥ MIN_FILES_FOR_CHECK)

/-- Latest segment mtime of a folder (`max(f.stat().st_mtime for f in ts_files)`);
only ever used on nonempty listings. -/
def latestMtime : List SegFile → Int
  | [] => 0
  | f :: t => t.foldl (fun m g => max m g.mtime) f.mtime

/-- `is_live_active` (checker.py line 55). -/
def is_live_active (now : Int) (f : LiveFolder) : Bool :=
  !f.tsFiles.isEmpty && decide (now - latestMtime f.tsFiles ≤ LIVE_INACTIVE_THRESHOLD)

/-- `is_really_stream_ended` (checker.py lines 66-85): every folder that
has segment files has been quiet for longer than the grace period. -/
def is_really_stream_ended (now : Int) (folders : List LiveFolder)
    (grace : Int) : Bool :=
  folders.all (fun f => f.tsFiles.isEmpty || decide (now - latestMtime f.tsFiles > grace))

/-- Folder order for `find_all_live_folders` (checker.py line 18). -/
def mtimeLeL : LiveFolder → LiveFolder → Prop := fun a b => a.mtime ≤ b.mtime

instance : DecidableRel mtimeLeL := fun a b => inferInstanceAs (Decidable (a.mtime ≤ b.mtime))

/-- `find_all_live_folders` (checker.py lines 12-18): every directory whose
name does not start with `temp_`, sorted by directory mtime. -/
def find_all_live_folders (raw : List LiveFolder) : List LiveFolder :=
  List.insertionSort mtimeLeL
    (raw.filter (fun f => !(("temp_".data).isPrefixOf f.name.data)))

/-- The working folder list of one tick (checker.py lines 401-406,
`PROCESS_ALL_FOLDERS = True`): drop already-merged folders and keep only
the last `MAX_CONCURRENT_FOLDERS` of the mtime-sorted list. -/
def allFoldersOf (raw : List LiveFolder) : List LiveFolder :=
  let l := (find_all_live_folders raw).filter (fun f => !(has_been_merged f))
  if l.length > MAX_CONCURRENT_FOLDERS then l.drop (l.length - MAX_CONCURRENT_FOLDERS)
  else l

/-- `min(..., key=lambda x: x.stat().st_ctime)`: the first folder with the
strictly smallest creation time. -/
def minByCtime : List LiveFolder → Option LiveFolder
  | [] => none
  | h :: t => some (t.foldl (fun best f => if f.ctime < best.ctime then f else best) h)

/-- `get_earliest_active_folder` (checker.py lines 137-150). -/
def get_earliest_active_folder (now : Int) (folders : List LiveFolder) :
    Option LiveFolder :=
  minByCtime (folders.filter (fun f => !f.tsFiles.isEmpty && is_live_active now f))

/-- The per-folder tracking record held in `folder_states`
(checker.py lines 322-329). -/
structure TrackRecord where
  session : SessionState
  lastCheck : Int
  creationTime : Int
deriving DecidableEq, Repr

/-- Association-list lookup keyed by folder name. -/
def lookupRec (l : List (String × TrackRecord)) (k : String) : Option TrackRecord :=
  (l.find? (fun p => p.1 == k)).map (fun p => p.2)

/-- Association-list update-or-insert keyed by folder name. -/
def setRec (l : List (String × TrackRecord)) (k : String) (v : TrackRecord) :
    List (String × TrackRecord) :=
  if (l.find? (fun p => p.1 == k)).isSome then
    l.map (fun p => if p.1 == k then (k, v) else p)
  else l ++ [(k, v)]

def lookupCount (l : List (String × Nat)) (k : String) : Option Nat :=
  (l.find? (fun p => p.1 == k)).map (fun p => p.2)

def setCount (l : List (String × Nat)) (k : String) (v : Nat) : List (String × Nat) :=
  if (l.find? (fun p => p.1 == k)).isSome then
    l.map (fun p => if p.1 == k then (k, v) else p)
  else l ++ [(k, v)]

/-- The loop-carried state of `main_loop`: `folder_states`,
`subtitle_check_count` and the `merge_called` flag. -/
structure TickState where
  folderStates : List (String × TrackRecord)
  subtitleCount : List (String × Nat)
  mergeCalled : Bool
deriving DecidableEq, Repr

/-- `process_single_folder` (checker.py lines 317-362) given the folder's
(possibly freshly created) record.  Returns the updated record and the
completed flag. -/
def process_single_folder (probe : String → Option String) (now : Int)
    (f : LiveFolder) (rec : TrackRecord) : TrackRecord × Bool :=
  if has_been_merged f then (rec, true)
  else if !(has_files_to_check f) then (rec, false)
  else if decide (now - rec.lastCheck ≥ LIVE_CHECK_INTERVAL) then
    let arrival := get_unchecked_stable_files f.tsFiles rec.session.checkedFiles now
    ({ rec with session := check_live_folder_incremental probe arrival rec.session,
                lastCheck := now }, false)
  else (rec, false)

inductive TickBranch
  | noFolders
  | streaming
  | finalizing
  | waiting
deriving DecidableEq, Repr

/-- What one tick of `main_loop` did: the branch taken, the updated
loop state, the manifests written this tick (folder name and lines),
whether `merge_once()` was invoked, the folders attempted in the streaming
branch, and the folders on which `finalize_live_check` was invoked in the
finalizing branch. -/
structure TickResult where
  branch : TickBranch
  state : TickState
  manifests : List (String × List String)
  mergeInvoked : Bool
  processed : List String
  finalized : List String
deriving DecidableEq, Repr

/-- A tick that raised: the folder whose processing raised the uncaught
exception and the folders finalized before it.  An `Except.error` outcome
terminates the poll loop. -/
abbrev TickOutcome := Except (String × List String) TickResult

instance exceptDecEq {ε α : Type} [DecidableEq ε] [DecidableEq α] :
    DecidableEq (Except ε α) := fun x y =>
  match x, y with
  | .error a, .error b =>
    if h : a = b then .isTrue (congrArg Except.error h)
    else .isFalse (fun hc => h (Except.error.inj hc))
  | .ok a, .ok b =>
    if h : a = b then .isTrue (congrArg Except.ok h)
    else .isFalse (fun hc => h (Except.ok.inj hc))
  | .error _, .ok _ => .isFalse (fun hc => Except.noConfusion hc)
  | .ok _, .error _ => .isFalse (fun hc => Except.noConfusion hc)

/-- `cleanup_old_folder_states` (checker.py lines 365-381).  `manifestNow`
tells whether `filelist.txt` exists for a tracked name at cleanup time. -/
def cleanup_old_folder_states (fs : List (String × TrackRecord))
    (activeNames : List String) (now : Int) (manifestNow : String → Bool) :
    List (String × TrackRecord) :=
  fs.filter (fun p =>
    !((!(activeNames.contains p.1) && decide (now - p.2.lastCheck > FOLDER_CLEANUP_DELAY))
      || manifestNow p.1))

/-- The subtitle bookkeeping of one tick (checker.py lines 431-444): the
counter for the earliest folder is incremented, and after five checks a
missing subtitle is overridden to `true`. -/
def subtitleStep (subActual : String → Bool) (counts : List (String × Nat))
    (earliest : Option LiveFolder) : Bool × List (String × Nat) :=
  match earliest with
  | none => (false, counts)
  | some e =>
    let c1 := (lookupCount counts e.name).getD 0 + 1
    let counts1 := setCount counts e.name c1
    let actual := subActual e.name
    (actual || (!actual && decide (c1 ≥ 5)), counts1)

/-- The accumulator of the finalizing branch (checker.py lines 485-502):
the evolving `folder_states`, the folder list with manifests written so
far, the manifests written, and the folders finalize was invoked on. -/
structure FinalAcc where
  fs : List (String × TrackRecord)
  folders : List LiveFolder
  manifests : List (String × List String)
  finalized : List String
deriving Repr

/-- One folder of the finalizing branch.  There is no try/except here:
a raising folder aborts the whole tick (checker.py lines 485-502). -/
def finalizeFolderStep (probe : String → Option String) (exc : String → Bool)
    (now : Int) (acc : FinalAcc) (f : LiveFolder) : Except (String × List String) FinalAcc :=
  if exc f.name then .error (f.name, acc.finalized)
  else if !(has_been_merged f) && has_files_to_check f then
    let rec0 := (lookupRec acc.fs f.name).getD ⟨emptySession, 0, now⟩
    let r := finalize_live_check probe f.tsFiles rec0.session
      (finalizeUnchecked f.tsFiles rec0.session)
    let fs1 := setRec acc.fs f.name { rec0 with session := r.state }
    if r.success then
      .ok { fs := fs1,
            folders := acc.folders ++ [{ f with hasManifest := true }],
            manifests := acc.manifests ++ [(f.name, r.manifest.getD [])],
            finalized := acc.finalized ++ [f.name] }
    else
      .ok { fs := fs1, folders := acc.folders ++ [f],
            manifests := acc.manifests, finalized := acc.finalized ++ [f.name] }
  else .ok { acc with folders := acc.folders ++ [f] }

/-- The finalizing-branch loop over the folders (checker.py lines 485-502):
the first raising folder aborts the whole tick. -/
def finalizePass (probe : String → Option String) (exc : String → Bool) (now : Int) :
    List LiveFolder → FinalAcc → Except (String × List String) FinalAcc
  | [], acc => .ok acc
  | f :: t, acc =>
    match finalizeFolderStep probe exc now acc f with
    | .error e => .error e
    | .ok acc1 => finalizePass probe exc now t acc1

/-- `all_folders_completed` (checker.py lines 38-42). -/
def all_folders_completed (folders : List LiveFolder) : Bool :=
  !folders.isEmpty && folders.all has_been_merged

/-- The streaming branch body (checker.py lines 453-478): every folder is
processed inside try/except, so a raising folder is skipped and the rest
continue. -/
def streamingStep (probe : String → Option String) (exc : String → Bool)
    (now : Int) (fs : List (String × TrackRecord)) (f : LiveFolder) :
    List (String × TrackRecord) :=
  if exc f.name then fs
  else
    let rec0 := (lookupRec fs f.name).getD ⟨emptySession, 0, now⟩
    let fs1 := if (lookupRec fs f.name).isSome then fs else setRec fs f.name rec0
    let r := process_single_folder probe now f rec0
    setRec fs1 f.name r.1

/-- One tick of `main_loop` (checker.py lines 394-524) under
`PROCESS_ALL_FOLDERS = True`.  Parameters: `probe` the ffprobe oracle,
`exc` which folders raise during their per-folder processing,
`subActual` whether `has_matching_subtitle_file` finds a subtitle,
`isStreaming` the live-status signal, `raw` the directory listing,
`now` the current time, `st` the loop-carried state. -/
def mainLoopTick (probe : String → Option String) (exc : String → Bool)
    (subActual : String → Bool) (isStreaming : Bool) (raw : List LiveFolder)
    (now : Int) (st : TickState) : TickOutcome :=
  let allFolders := allFoldersOf raw
  if allFolders.isEmpty then
    .ok { branch := .noFolders, state := st, manifests := [],
          mergeInvoked := false, processed := [], finalized := [] }
  else
    let filesActive := !(is_really_stream_ended now allFolders FINAL_INACTIVE_THRESHOLD)
    let earliest :=
      if filesActive then get_earliest_active_folder now allFolders
      else minByCtime allFolders
    let sub := subtitleStep subActual st.subtitleCount earliest
    let subtitleExists := sub.1
    let counts1 := sub.2
    let activeNames := allFolders.map (fun f => f.name)
    let counts2 := counts1.filter (fun p => activeNames.contains p.1)
    if isStreaming || filesActive then
      let fs1 := allFolders.foldl (streamingStep probe exc now) st.folderStates
      let fs2 := cleanup_old_folder_states fs1 activeNames now
        (fun n => (((raw.find? (fun f => f.name == n)).map has_been_merged).getD false))
      .ok { branch := .streaming,
            state := { folderStates := fs2, subtitleCount := counts2, mergeCalled := false },
            manifests := [], mergeInvoked := false,
            processed := allFolders.map (fun f => f.name), finalized := [] }
    else if subtitleExists then
      match finalizePass probe exc now allFolders
        { fs := st.folderStates, folders := [], manifests := [], finalized := [] } with
      | .error e => .error e
      | .ok acc =>
        let doMerge := all_folders_completed acc.folders && !st.mergeCalled
        let merged1 := if doMerge then true else st.mergeCalled
        let manifestNow := fun n =>
          (acc.manifests.any (fun m => m.1 == n))
          || (((raw.find? (fun f => f.name == n)).map has_been_merged).getD false)
        let fs2 := cleanup_old_folder_states acc.fs activeNames now manifestNow
        .ok { branch := .finalizing,
              state := { folderStates := fs2, subtitleCount := counts2, mergeCalled := merged1 },
              manifests := acc.manifests, mergeInvoked := doMerge,
              processed := [], finalized := acc.finalized }
    else
      let fs2 := cleanup_old_folder_states st.folderStates activeNames now
        (fun n => (((raw.find? (fun f => f.name == n)).map has_been_merged).getD false))
      .ok { branch := .waiting,
            state := { folderStates := fs2, subtitleCount := counts2, mergeCalled := false },
            manifests := [], mergeInvoked := false, processed := [], finalized := [] }

/-! ## Two concurrent `merge_item` runs on one output name
(`src/merger.py`, `FileLock` lines 16-52 and `merge_item` lines 136-188).

Two processes execute `merge_item` for the same output name.  Program
locations follow the source: `pre` = the pre-lock output-existence check
(line 149), `tl` = the non-blocking `flock` acquisition (lines 154-157),
`dc` = the double check under the lock (line 160), `inv` = the ffmpeg
invocation (line 181, the output artifact appears on success), `rel` = the
lock release on leaving the `with` block, `fin` = returned.  The filelist
exists and the concatenation oracle succeeds when invoked, matching the
claim's premise that a merge happens. -/

inductive LockPC
  | pre
  | tl
  | dc
  | inv
  | rel
  | fin
deriving DecidableEq, Repr, Fintype

/-- How a process finished: still running, returned at the pre-lock output
check, returned `False` on a failed lock acquisition, returned at the
under-lock output check, or merged (invoked the oracle) itself. -/
inductive LockVia
  | running
  | preOut
  | lockFail
  | underOut
  | merged
deriving DecidableEq, Repr, Fintype

structure LockProc where
  pc : LockPC
  via : LockVia
deriving DecidableEq, Repr, Fintype

/-- Who holds the advisory lock. -/
inductive LockOwner
  | free
  | byA
  | byB
deriving DecidableEq, Repr, Fintype

/-- Shared state: the two processes, the advisory lock owner, and whether
the output artifact exists. -/
structure LockSt where
  a : LockProc
  b : LockProc
  lock : LockOwner
  out : Bool
deriving DecidableEq, Repr, Fintype

def lockInit : LockSt := ⟨⟨.pre, .running⟩, ⟨.pre, .running⟩, .free, false⟩

def stepA (s : LockSt) : LockSt :=
  match s.a.pc with
  | .pre => if s.out then { s with a := ⟨.fin, .preOut⟩ } else { s with a := ⟨.tl, .running⟩ }
  | .tl =>
    if s.lock == .free then { s with a := ⟨.dc, .running⟩, lock := .byA }
    else { s with a := ⟨.fin, .lockFail⟩ }
  | .dc =>
    if s.out then { s with a := ⟨.fin, .underOut⟩, lock := .free }
    else { s with a := ⟨.inv, .running⟩ }
  | .inv => { s with a := ⟨.rel, .running⟩, out := true }
  | .rel => { s with a := ⟨.fin, .merged⟩, lock := .free }
  | .fin => s

def stepB (s : LockSt) : LockSt :=
  match s.b.pc with
  | .pre => if s.out then { s with b := ⟨.fin, .preOut⟩ } else { s with b := ⟨.tl, .running⟩ }
  | .tl =>
    if s.lock == .free then { s with b := ⟨.dc, .running⟩, lock := .byB }
    else { s with b := ⟨.fin, .lockFail⟩ }
  | .dc =>
    if s.out then { s with b := ⟨.fin, .underOut⟩, lock := .free }
    else { s with b := ⟨.inv, .running⟩ }
  | .inv => { s with b := ⟨.rel, .running⟩, out := true }
  | .rel => { s with b := ⟨.fin, .merged⟩, lock := .free }
  | .fin => s

/-- One scheduler step: `true` steps the first process. -/
def lockStep (w : Bool) (s : LockSt) : LockSt := if w then stepA s else stepB s

/-- Run a schedule (an arbitrary interleaving of the two processes). -/
def lockRun (sched : List Bool) : LockSt :=
  sched.foldl (fun s w => lockStep w s) lockInit

/-- A process has invoked the concatenation oracle. -/
def invokedP (p : LockProc) : Bool := p.pc == .rel || p.via == .merged

/-- Number of oracle invocations so far. -/
def oracleCount (s : LockSt) : Nat :=
  (if invokedP s.a then 1 else 0) + (if invokedP s.b then 1 else 0)

/-- The boolean each finished process returned. -/
def lockResult (v : LockVia) : Bool :=
  match v with
  | .lockFail => false
  | _ => true

def bothDone (s : LockSt) : Bool := s.a.pc == .fin && s.b.pc == .fin

/-- The inductive invariant of the two-process system. -/
def lockInv (s : LockSt) : Bool :=
  (s.out == (invokedP s.a || invokedP s.b))
  && !(invokedP s.a && invokedP s.b)
  && ((s.lock == .byA) == (s.a.pc == .dc || s.a.pc == .inv || s.a.pc == .rel))
  && ((s.lock == .byB) == (s.b.pc == .dc || s.b.pc == .inv || s.b.pc == .rel))
  && (!(s.a.pc == .inv) || !s.out)
  && (!(s.b.pc == .inv) || !s.out)
  && ((s.a.via == .running) == !(s.a.pc == .fin))
  && ((s.b.via == .running) == !(s.b.pc == .fin))
  && (!(s.a.via == .preOut || s.a.via == .underOut) || s.out)
  && (!(s.b.via == .preOut || s.b.via == .underOut) || s.out)
  && (!(s.a.via == .lockFail && oracleCount s == 0) || s.lock == .byB)
  && (!(s.b.via == .lockFail && oracleCount s == 0) || s.lock == .byA)

/-! ## Auxiliary definitions used by the theorems -/

/-- The folder names swallowed into combined (two-session) merge units by
the pairing loop. -/
def combinedNames (subs : List String) : List MFolder → List String
  | [] => []
  | [_] => []
  | f1 :: f2 :: rest =>
    if should_merge_folders subs f1 f2 then
      f1.name :: f2.name :: combinedNames subs rest
    else combinedNames subs (f2 :: rest)

/-- The folder names processed as their own single merge unit by the
pairing loop. -/
def singleNames (subs : List String) : List MFolder → List String
  | [] => []
  | [f] => [f.name]
  | f1 :: f2 :: rest =>
    if should_merge_folders subs f1 f2 then singleNames subs rest
    else f1.name :: singleNames subs (f2 :: rest)

/-- A concatenation oracle that always succeeds (ffmpeg exit code 0). -/
def oracleTrue : String → Bool := fun _ => true

/-- An inspection oracle that accepts every segment. -/
def probeAllValid : String → Option String := fun _ => none

/-- An inspection oracle that rejects every segment with the same reason. -/
def probeAllBad : String → Option String := fun _ => some "bad"

/-- No folder raises during its per-folder processing. -/
def excNone : String → Bool := fun _ => false

/-- Concrete world for the C2 counterexample: two finalized sessions, the
first with a subtitle and the second without, so they form one combined
merge unit. -/
def c2World : MergeWorld :=
  { folders := [⟨"a", 0, true, ["file a1"]⟩, ⟨"b", 1, true, ["file b1"]⟩],
    outputs := [], subtitles := ["a"], markers := [], oracleCalls := 0 }

/-- Concrete world for the C4 counterexample (same shape as `c2World`). -/
def c4World : MergeWorld :=
  { folders := [⟨"a", 0, true, ["file a1"]⟩, ⟨"b", 1, true, ["file b1"]⟩],
    outputs := [], subtitles := ["a"], markers := [], oracleCalls := 0 }

/-- Concrete session listing for the C3 counterexample: one segment that
always fails inspection. -/
def c3files : List SegFile := [⟨"s1.ts", 0⟩]

/-- First (failing) finalization pass of the C3 counterexample. -/
def c3r1 : FinalizeResult :=
  finalize_live_check probeAllBad c3files emptySession
    (finalizeUnchecked c3files emptySession)

/-- Retried finalization pass of the C3 counterexample. -/
def c3r2 : FinalizeResult :=
  finalize_live_check probeAllBad c3files c3r1.state
    (finalizeUnchecked c3files c3r1.state)

/-- Inspection oracle for the C7 counterexample: only `s1.ts` is invalid. -/
def c7probe : String → Option String :=
  fun n => if n == "s1.ts" then some "bad s1" else none

/-- Directory listing at the first (failing) finalization attempt of the
C7 counterexample: only the invalid segment has been written yet. -/
def c7files1 : List SegFile := [⟨"s1.ts", 0⟩]

/-- Directory listing at the retried finalization: the recorder has since
produced one valid segment, so the session has N = 2 segments of which
K = 1 fails validation. -/
def c7files2 : List SegFile := [⟨"s1.ts", 0⟩, ⟨"s2.ts", 10⟩]

/-- First finalization attempt of the C7 counterexample: zero valid
segments, so it fails — but the error entry for `s1.ts` stays in the
record and `s1.ts` is not marked checked. -/
def c7r1 : FinalizeResult :=
  finalize_live_check c7probe c7files1 emptySession
    (finalizeUnchecked c7files1 emptySession)

/-- Retried finalization of the C7 counterexample, now with the valid
segment present. -/
def c7r2 : FinalizeResult :=
  finalize_live_check c7probe c7files2 c7r1.state
    (finalizeUnchecked c7files2 c7r1.state)

/-- The C1 failing input: a session directory created 5 seconds ago (well
below `MIN_FOLDER_AGE_FOR_FINALIZE = 30`) holding five segment files whose
mtimes lie beyond every inactivity window. -/
def c1folder : LiveFolder :=
  { name := "250101_x", ctime := 995, mtime := 800,
    tsFiles := [⟨"t1.ts", 800⟩, ⟨"t2.ts", 801⟩, ⟨"t3.ts", 802⟩,
                ⟨"t4.ts", 803⟩, ⟨"t5.ts", 804⟩],
    hasManifest := false }

def c1raw : List LiveFolder := [c1folder]

/-- Every folder has a matching subtitle file. -/
def subAll : String → Bool := fun _ => true

def emptyTickState : TickState := { folderStates := [], subtitleCount := [], mergeCalled := false }

/-- The C8 failing input: two quiet, checkable sessions; processing the
first one raises. -/
def c8folderA : LiveFolder :=
  { name := "a", ctime := 0, mtime := 1,
    tsFiles := [⟨"a1.ts", 100⟩, ⟨"a2.ts", 101⟩, ⟨"a3.ts", 102⟩,
                ⟨"a4.ts", 103⟩, ⟨"a5.ts", 104⟩],
    hasManifest := false }

def c8folderB : LiveFolder :=
  { name := "b", ctime := 1, mtime := 2,
    tsFiles := [⟨"b1.ts", 100⟩, ⟨"b2.ts", 101⟩, ⟨"b3.ts", 102⟩,
                ⟨"b4.ts", 103⟩, ⟨"b5.ts", 104⟩],
    hasManifest := false }

def c8raw : List LiveFolder := [c8folderA, c8folderB]

/-- Only folder `a` raises. -/
def c8exc : String → Bool := fun n => n == "a"

/-- The C9 counterexample schedule: the first process runs through its
ffmpeg invocation (so the output artifact exists, the lock is still held),
then the second process starts and returns at its pre-lock output check,
then the first process releases.  Both executions overlap. -/
def c9Sched : List Bool := [true, true, true, true, false, true]

/-! ## Order facts for the sort relations -/

theorem charListLe_total : ∀ x y : List Char,
    charListLe x y = true ∨ charListLe y x = true := by
  intro x
  induction x with
  | nil =>
    intro y
    left
    cases y <;> rfl
  | cons a as ih =>
    intro y
    cases y with
    | nil => right; rfl
    | cons b bs =>
      by_cases h1 : a.val.toNat < b.val.toNat
      · left
        simp [charListLe, h1]
      · by_cases h2 : b.val.toNat < a.val.toNat
        · right
          simp [charListLe, h2]
        · rcases ih bs with h | h
          · left
            simp [charListLe, h1, h2, h]
          · right
            simp [charListLe, h1, h2, h]

theorem charListLe_cases : ∀ {a b : Char} {as bs : List Char},
    charListLe (a :: as) (b :: bs) = true →
    a.val.toNat < b.val.toNat ∨
      (a.val.toNat = b.val.toNat ∧ charListLe as bs = true) := by
  intro a b as bs h
  by_cases h1 : a.val.toNat < b.val.toNat
  · exact Or.inl h1
  · by_cases h2 : b.val.toNat < a.val.toNat
    · simp [charListLe, h1, h2] at h
    · refine Or.inr ⟨by omega, ?_⟩
      simpa [charListLe, h1, h2] using h

theorem charListLe_of_lt {a b : Char} {as bs : List Char}
    (h : a.val.toNat < b.val.toNat) : charListLe (a :: as) (b :: bs) = true := by
  simp [charListLe, h]

theorem charListLe_of_eq {a b : Char} {as bs : List Char}
    (h : a.val.toNat = b.val.toNat) (hrec : charListLe as bs = true) :
    charListLe (a :: as) (b :: bs) = true := by
  simp [charListLe, h, hrec]

theorem charListLe_trans : ∀ x y z : List Char,
    charListLe x y = true → charListLe y z = true → charListLe x z = true := by
  intro x
  induction x with
  | nil =>
    intro y z _ _
    cases z <;> rfl
  | cons a as ih =>
    intro y z hxy hyz
    cases y with
    | nil => simp [charListLe] at hxy
    | cons b bs =>
      cases z with
      | nil => simp [charListLe] at hyz
      | cons c cs =>
        rcases charListLe_cases hxy with h1 | ⟨h1, hr1⟩ <;>
          rcases charListLe_cases hyz with h2 | ⟨h2, hr2⟩
        · exact charListLe_of_lt (by omega)
        · exact charListLe_of_lt (by omega)
        · exact charListLe_of_lt (by omega)
        · exact charListLe_of_eq (by omega) (ih bs cs hr1 hr2)

theorem charListLe_antisymm : ∀ x y : List Char,
    charListLe x y = true → charListLe y x = true → x = y := by
  intro x
  induction x with
  | nil =>
    intro y _ hyx
    cases y with
    | nil => rfl
    | cons b bs => simp [charListLe] at hyx
  | cons a as ih =>
    intro y hxy hyx
    cases y with
    | nil => simp [charListLe] at hxy
    | cons b bs =>
      rcases charListLe_cases hxy with h1 | ⟨h1, hr1⟩ <;>
        rcases charListLe_cases hyx with h2 | ⟨h2, hr2⟩
      · omega
      · omega
      · omega
      · have hval : a.val = b.val := by
          have : a.val.toNat = b.val.toNat := h1
          exact UInt32.toNat.inj this
        have hc : a = b := by
          cases a
          cases b
          cases hval
          rfl
        rw [hc, ih bs hr1 hr2]

instance : IsTotal String strLe :=
  ⟨fun a b => charListLe_total a.data b.data⟩

instance : IsTrans String strLe :=
  ⟨fun a b c h1 h2 => charListLe_trans a.data b.data c.data h1 h2⟩

instance : IsAntisymm String strLe := ⟨by
  intro a b h1 h2
  have hd := charListLe_antisymm a.data b.data h1 h2
  cases a
  cases b
  cases hd
  rfl⟩


instance : IsTotal MFolder mtimeLeM := ⟨fun a b => le_total a.mtime b.mtime⟩

instance : IsTrans MFolder mtimeLeM := ⟨fun _ _ _ h1 h2 => le_trans h1 h2⟩

instance : IsTotal LiveFolder mtimeLeL := ⟨fun a b => le_total a.mtime b.mtime⟩

instance : IsTrans LiveFolder mtimeLeL := ⟨fun _ _ _ h1 h2 => le_trans h1 h2⟩

/-! ## Lemmas: the incremental and final scans -/

theorem check_incremental_spec (probe : String → Option String) :
    ∀ (arrival : List SegFile) (st : SessionState),
    check_live_folder_incremental probe arrival st =
      { checkedFiles := st.checkedFiles ++ arrival.map (fun f => f.name),
        validFiles := st.validFiles ++
          (arrival.filter (fun f => (probe f.name).isNone)).map (fun f => f.name),
        errorLogs := st.errorLogs ++
          (arrival.filter (fun f => !((probe f.name).isNone))).map
            (fun f => (probe f.name).getD "") } := by
  intro arrival
  induction arrival with
  | nil => intro st; simp [check_live_folder_incremental]
  | cons f t ih =>
    intro st
    cases h : probe f.name with
    | none => simp [check_live_folder_incremental, h, ih]
    | some m => simp [check_live_folder_incremental, h, ih]

theorem finalizeScan_spec (probe : String → Option String) :
    ∀ (arrival : List SegFile) (st : SessionState),
    finalizeScan probe arrival st =
      { checkedFiles := st.checkedFiles,
        validFiles := st.validFiles ++
          (arrival.filter (fun f => (probe f.name).isNone)).map (fun f => f.name),
        errorLogs := st.errorLogs ++
          (arrival.filter (fun f => !((probe f.name).isNone))).map
            (fun f => (probe f.name).getD "") } := by
  intro arrival
  induction arrival with
  | nil => intro st; simp [finalizeScan]
  | cons f t ih =>
    intro st
    cases h : probe f.name with
    | none => simp [finalizeScan, h, ih]
    | some m => simp [finalizeScan, h, ih]

theorem length_filter_split (l : List α) (q : α → Bool) :
    (l.filter q).length + (l.filter (fun x => !(q x))).length = l.length := by
  have h := (List.filter_append_perm q l).length_eq
  simpa using h

theorem isEmpty_false_of_length_pos {l : List α} (h : 0 < l.length) :
    l.isEmpty = false := by
  cases l with
  | nil => simp at h
  | cons a t => simp [List.isEmpty]

/-! ## Claim C5 -/

/-- C5: if the final validation pass yields zero valid segments,
`finalize_live_check` returns failure, writes neither a manifest nor an
error report (the session's on-disk state is unchanged), and the in-memory
record is exactly the scanned record, so the session stays un-finalized and
is retried on a later tick. -/
theorem c5_zero_valid_no_manifest (probe : String → Option String)
    (dirFiles : List SegFile) (st : SessionState) (arrival : List SegFile)
    (h : (finalizeScan probe arrival st).validFiles = []) :
    (finalize_live_check probe dirFiles st arrival).success = false ∧
    (finalize_live_check probe dirFiles st arrival).manifest = none ∧
    (finalize_live_check probe dirFiles st arrival).report = none ∧
    (finalize_live_check probe dirFiles st arrival).state = finalizeScan probe arrival st := by
  simp [finalize_live_check, h]

/-- Witness for C5 at a concrete input: one segment failing inspection. -/
theorem c5_zero_valid_no_manifest_witness :
    (finalizeScan probeAllBad [⟨"s1.ts", 0⟩] emptySession).validFiles = [] ∧
    ((finalize_live_check probeAllBad [⟨"s1.ts", 0⟩] emptySession [⟨"s1.ts", 0⟩]).success = false ∧
     (finalize_live_check probeAllBad [⟨"s1.ts", 0⟩] emptySession [⟨"s1.ts", 0⟩]).manifest = none ∧
     (finalize_live_check probeAllBad [⟨"s1.ts", 0⟩] emptySession [⟨"s1.ts", 0⟩]).report = none ∧
     (finalize_live_check probeAllBad [⟨"s1.ts", 0⟩] emptySession [⟨"s1.ts", 0⟩]).state
       = finalizeScan probeAllBad [⟨"s1.ts", 0⟩] emptySession) :=
  ⟨by decide,
   c5_zero_valid_no_manifest probeAllBad [⟨"s1.ts", 0⟩] emptySession [⟨"s1.ts", 0⟩] (by decide)⟩

/-! ## Claim C6 -/

/-- C6: the manifest written by `finalize_live_check` is one line
`file '<path>'` plus newline per valid segment, in segment-name sort order,
and its content is invariant under permuting both the previously
accumulated valid list and the completion order of the final batch: it is a
function of the set of valid segment paths alone. -/
theorem c6_manifest_deterministic (probe : String → Option String)
    (dirFiles1 dirFiles2 : List SegFile) (st1 st2 : SessionState)
    (a1 a2 : List SegFile)
    (hv : st1.validFiles.Perm st2.validFiles) (ha : a1.Perm a2) :
    (finalize_live_check probe dirFiles1 st1 a1).manifest
      = (finalize_live_check probe dirFiles2 st2 a2).manifest ∧
    (finalize_live_check probe dirFiles1 st1 a1).manifest
      = (if (finalizeScan probe a1 st1).validFiles.isEmpty then none
         else some ((List.insertionSort strLe
             (finalizeScan probe a1 st1).validFiles).map manifestLine)) := by
  have hva : ((finalizeScan probe a1 st1).validFiles).Perm
      ((finalizeScan probe a2 st2).validFiles) := by
    rw [finalizeScan_spec, finalizeScan_spec]
    exact hv.append ((ha.filter _).map _)
  by_cases h1 : (finalizeScan probe a1 st1).validFiles = []
  · have h2 : (finalizeScan probe a2 st2).validFiles = [] := by
      have := hva.symm
      rw [h1] at this
      exact this.eq_nil
    constructor
    · simp [finalize_live_check, h1, h2]
    · simp [finalize_live_check, h1]
  · have h2 : ¬((finalizeScan probe a2 st2).validFiles = []) := by
      intro hc
      rw [hc] at hva
      exact h1 hva.eq_nil
    have hsort : List.insertionSort strLe (finalizeScan probe a1 st1).validFiles
        = List.insertionSort strLe (finalizeScan probe a2 st2).validFiles := by
      exact List.eq_of_perm_of_sorted
        ((List.perm_insertionSort strLe _).trans
          (hva.trans (List.perm_insertionSort strLe _).symm))
        (List.sorted_insertionSort strLe _) (List.sorted_insertionSort strLe _)
    have he1 : (finalizeScan probe a1 st1).validFiles.isEmpty = false := by
      cases hl : (finalizeScan probe a1 st1).validFiles with
      | nil => exact absurd hl h1
      | cons x xs => simp [List.isEmpty]
    have he2 : (finalizeScan probe a2 st2).validFiles.isEmpty = false := by
      cases hl : (finalizeScan probe a2 st2).validFiles with
      | nil => exact absurd hl h2
      | cons x xs => simp [List.isEmpty]
    constructor
    · simp [finalize_live_check, he1, he2, hsort]
    · simp [finalize_live_check, he1]

/-- Witness for C6 at a concrete input: two permuted valid lists and two
permuted final batches produce identical manifests. -/
theorem c6_manifest_deterministic_witness :
    (SessionState.mk ["s1.ts"] ["b.ts", "a.ts"] []).validFiles.Perm
      (SessionState.mk ["s1.ts"] ["a.ts", "b.ts"] []).validFiles ∧
    ([(⟨"d.ts", 0⟩ : SegFile), ⟨"c.ts", 0⟩]).Perm [(⟨"c.ts", 0⟩ : SegFile), ⟨"d.ts", 0⟩] ∧
    ((finalize_live_check probeAllValid [] ⟨["s1.ts"], ["b.ts", "a.ts"], []⟩
        [⟨"d.ts", 0⟩, ⟨"c.ts", 0⟩]).manifest
      = (finalize_live_check probeAllValid [] ⟨["s1.ts"], ["a.ts", "b.ts"], []⟩
        [⟨"c.ts", 0⟩, ⟨"d.ts", 0⟩]).manifest ∧
     (finalize_live_check probeAllValid [] ⟨["s1.ts"], ["b.ts", "a.ts"], []⟩
        [⟨"d.ts", 0⟩, ⟨"c.ts", 0⟩]).manifest
      = (if (finalizeScan probeAllValid [⟨"d.ts", 0⟩, ⟨"c.ts", 0⟩]
            ⟨["s1.ts"], ["b.ts", "a.ts"], []⟩).validFiles.isEmpty then none
         else some ((List.insertionSort strLe
             (finalizeScan probeAllValid [⟨"d.ts", 0⟩, ⟨"c.ts", 0⟩]
               ⟨["s1.ts"], ["b.ts", "a.ts"], []⟩).validFiles).map manifestLine))) :=
  ⟨by decide, by decide,
   c6_manifest_deterministic probeAllValid [] [] ⟨["s1.ts"], ["b.ts", "a.ts"], []⟩
     ⟨["s1.ts"], ["a.ts", "b.ts"], []⟩ [⟨"d.ts", 0⟩, ⟨"c.ts", 0⟩] [⟨"c.ts", 0⟩, ⟨"d.ts", 0⟩]
     (by decide) (by decide)⟩

/-! ## Claim C7 -/

/-- C7 counterexample: a reachable execution in which a session with N = 2
segments of which K = 1 fails validation produces an error report listing
2K reasons and an error count of 2K.  At the first finalization attempt
only the invalid segment exists: the pass fails with zero valid segments,
yet its error entry stays in the record and the segment is never marked
checked (checker.py lines 275-287).  After the recorder adds one valid
segment, the retried finalization re-probes the invalid segment, appends
its reason a second time, and succeeds: the report's header states 2
invalid files and its body lists the same reason twice — not "exactly K
reason lines, one per invalid segment". -/
theorem c7_counterexample :
    c7r1.success = false ∧
    c7r1.state.checkedFiles = [] ∧
    (c7files2.filter (fun f => !((c7probe f.name).isNone))).length = 1 ∧
    c7r2.success = true ∧
    (c7r2.manifest.getD []).length = 1 ∧
    c7r2.report = some { total := 2, valid := 1, errors := 2,
                         reasons := ["bad s1", "bad s1"] } := by
  decide

/-- C7 amended: for a session whose record is consistent with the
inspection oracle (the accumulated valid and error entries count exactly
the checked valid / checked invalid segments — which holds whenever all
prior classifications came from incremental scans, but fails after a
zero-valid finalization attempt left unchecked residue in the error log)
and whose final batch is exactly the unchecked segments, a session with N
segments of which K fail validation (and N−K ≥ 1) finalizes successfully
with a manifest of exactly N−K lines, and, when K ≥ 1, an error report
whose header counts are (N, N−K, K) and whose body lists exactly K reason
lines; with K = 0 no report is written. -/
theorem c7_error_report_counts (probe : String → Option String)
    (dirFiles : List SegFile) (st : SessionState) (arrival : List SegFile)
    (hval : st.validFiles.length = (dirFiles.filter (fun f =>
        st.checkedFiles.contains f.name && (probe f.name).isNone)).length)
    (herr : st.errorLogs.length = (dirFiles.filter (fun f =>
        st.checkedFiles.contains f.name && !((probe f.name).isNone))).length)
    (harr : arrival.Perm (finalizeUnchecked dirFiles st))
    (hK : (dirFiles.filter (fun f => !((probe f.name).isNone))).length < dirFiles.length) :
    (finalize_live_check probe dirFiles st arrival).success = true ∧
    (∃ lines, (finalize_live_check probe dirFiles st arrival).manifest = some lines ∧
      lines.length = dirFiles.length
        - (dirFiles.filter (fun f => !((probe f.name).isNone))).length) ∧
    (0 < (dirFiles.filter (fun f => !((probe f.name).isNone))).length →
      ∃ rep, (finalize_live_check probe dirFiles st arrival).report = some rep ∧
        rep.total = dirFiles.length ∧
        rep.valid = dirFiles.length
          - (dirFiles.filter (fun f => !((probe f.name).isNone))).length ∧
        rep.errors = (dirFiles.filter (fun f => !((probe f.name).isNone))).length ∧
        rep.reasons.length
          = (dirFiles.filter (fun f => !((probe f.name).isNone))).length) ∧
    ((dirFiles.filter (fun f => !((probe f.name).isNone))).length = 0 →
      (finalize_live_check probe dirFiles st arrival).report = none) := by
  have hspec := finalizeScan_spec probe arrival st
  -- the final batch, filtered for validity, counts the unchecked valid segments
  have hA1 : (arrival.filter (fun f => (probe f.name).isNone)).length
      = (dirFiles.filter (fun f =>
          (probe f.name).isNone && !(st.checkedFiles.contains f.name))).length := by
    have h1 := (harr.filter (fun f => (probe f.name).isNone)).length_eq
    rw [finalizeUnchecked, List.filter_filter] at h1
    exact h1
  have hA1e : (arrival.filter (fun f => !((probe f.name).isNone))).length
      = (dirFiles.filter (fun f =>
          !((probe f.name).isNone) && !(st.checkedFiles.contains f.name))).length := by
    have h1 := (harr.filter (fun f => !((probe f.name).isNone))).length_eq
    rw [finalizeUnchecked, List.filter_filter] at h1
    exact h1
  -- partition the valid segments by checked status
  have hA2 : (dirFiles.filter (fun f =>
        st.checkedFiles.contains f.name && (probe f.name).isNone)).length
      + (dirFiles.filter (fun f =>
          (probe f.name).isNone && !(st.checkedFiles.contains f.name))).length
      = (dirFiles.filter (fun f => (probe f.name).isNone)).length := by
    have h := length_filter_split
      (dirFiles.filter (fun f => (probe f.name).isNone))
      (fun f => st.checkedFiles.contains f.name)
    rw [List.filter_filter, List.filter_filter] at h
    have hcongr : dirFiles.filter (fun f =>
          !(st.checkedFiles.contains f.name) && (probe f.name).isNone)
        = dirFiles.filter (fun f =>
          (probe f.name).isNone && !(st.checkedFiles.contains f.name)) := by
      apply List.filter_congr
      intro a _
      rw [Bool.and_comm]
    rw [hcongr] at h
    exact h
  -- partition the invalid segments by checked status
  have hA2e : (dirFiles.filter (fun f =>
        st.checkedFiles.contains f.name && !((probe f.name).isNone))).length
      + (dirFiles.filter (fun f =>
          !((probe f.name).isNone) && !(st.checkedFiles.contains f.name))).length
      = (dirFiles.filter (fun f => !((probe f.name).isNone))).length := by
    have h := length_filter_split
      (dirFiles.filter (fun f => !((probe f.name).isNone)))
      (fun f => st.checkedFiles.contains f.name)
    rw [List.filter_filter, List.filter_filter] at h
    have hcongr : dirFiles.filter (fun f =>
          !(st.checkedFiles.contains f.name) && !((probe f.name).isNone))
        = dirFiles.filter (fun f =>
          !((probe f.name).isNone) && !(st.checkedFiles.contains f.name)) := by
      apply List.filter_congr
      intro a _
      rw [Bool.and_comm]
    rw [hcongr] at h
    exact h
  -- all segments split into valid and invalid
  have hA3 : (dirFiles.filter (fun f => (probe f.name).isNone)).length
      + (dirFiles.filter (fun f => !((probe f.name).isNone))).length
      = dirFiles.length := by
    simpa using length_filter_split dirFiles (fun f => (probe f.name).isNone)
  -- the scanned record's list lengths
  have hVlen : (finalizeScan probe arrival st).validFiles.length
      = (dirFiles.filter (fun f => (probe f.name).isNone)).length := by
    rw [hspec]
    simp only [List.length_append, List.length_map]
    rw [hval, hA1]
    exact hA2
  have hElen : (finalizeScan probe arrival st).errorLogs.length
      = (dirFiles.filter (fun f => !((probe f.name).isNone))).length := by
    rw [hspec]
    simp only [List.length_append, List.length_map]
    rw [herr, hA1e]
    exact hA2e
  have hVpos : 0 < (finalizeScan probe arrival st).validFiles.length := by
    rw [hVlen]
    omega
  have hVne : (finalizeScan probe arrival st).validFiles.isEmpty = false :=
    isEmpty_false_of_length_pos hVpos
  have hsortlen : (List.insertionSort strLe
      (finalizeScan probe arrival st).validFiles).length
      = (dirFiles.filter (fun f => (probe f.name).isNone)).length := by
    rw [(List.perm_insertionSort strLe _).length_eq, hVlen]
  refine ⟨?_, ?_, ?_, ?_⟩
  · simp [finalize_live_check, hVne]
  · refine ⟨(List.insertionSort strLe
        (finalizeScan probe arrival st).validFiles).map manifestLine, ?_, ?_⟩
    · simp [finalize_live_check, hVne]
    · rw [List.length_map, hsortlen]
      omega
  · intro hKpos
    have hEpos : 0 < (finalizeScan probe arrival st).errorLogs.length := by
      rw [hElen]
      exact hKpos
    have hEne : (finalizeScan probe arrival st).errorLogs.isEmpty = false :=
      isEmpty_false_of_length_pos hEpos
    refine ⟨{ total := dirFiles.length,
              valid := (List.insertionSort strLe
                (finalizeScan probe arrival st).validFiles).length,
              errors := (finalizeScan probe arrival st).errorLogs.length,
              reasons := (finalizeScan probe arrival st).errorLogs }, ?_, rfl, ?_, ?_, ?_⟩
    · simp [finalize_live_check, hVne, hEne]
    · dsimp only
      rw [hsortlen]
      omega
    · exact hElen
    · rw [hElen]
  · intro hK0
    have hE0 : (finalizeScan probe arrival st).errorLogs.length = 0 := by
      rw [hElen, hK0]
    have hEe : (finalizeScan probe arrival st).errorLogs.isEmpty = true := by
      cases hl : (finalizeScan probe arrival st).errorLogs with
      | nil => simp [List.isEmpty]
      | cons x xs =>
        rw [hl] at hE0
        simp at hE0
    simp [finalize_live_check, hVne, hEe]

/-- Witness for C7 at a concrete input: three segments, the second
failing inspection (N = 3, K = 1). -/
theorem c7_error_report_counts_witness :
    (emptySession.validFiles.length
      = (([⟨"s1.ts", 0⟩, ⟨"s2.ts", 0⟩, ⟨"s3.ts", 0⟩] : List SegFile).filter (fun f =>
          emptySession.checkedFiles.contains f.name
          && ((if f.name == "s2.ts" then some "bad s2" else none : Option String)).isNone)).length) ∧
    (emptySession.errorLogs.length
      = (([⟨"s1.ts", 0⟩, ⟨"s2.ts", 0⟩, ⟨"s3.ts", 0⟩] : List SegFile).filter (fun f =>
          emptySession.checkedFiles.contains f.name
          && !(((if f.name == "s2.ts" then some "bad s2" else none : Option String)).isNone))).length) ∧
    (([⟨"s1.ts", 0⟩, ⟨"s2.ts", 0⟩, ⟨"s3.ts", 0⟩] : List SegFile).Perm
      (finalizeUnchecked [⟨"s1.ts", 0⟩, ⟨"s2.ts", 0⟩, ⟨"s3.ts", 0⟩] emptySession)) ∧
    ((([⟨"s1.ts", 0⟩, ⟨"s2.ts", 0⟩, ⟨"s3.ts", 0⟩] : List SegFile).filter (fun f =>
        !(((if f.name == "s2.ts" then some "bad s2" else none : Option String)).isNone))).length
      < ([⟨"s1.ts", 0⟩, ⟨"s2.ts", 0⟩, ⟨"s3.ts", 0⟩] : List SegFile).length) ∧
    ((finalize_live_check (fun n => if n == "s2.ts" then some "bad s2" else none)
        [⟨"s1.ts", 0⟩, ⟨"s2.ts", 0⟩, ⟨"s3.ts", 0⟩] emptySession
        [⟨"s1.ts", 0⟩, ⟨"s2.ts", 0⟩, ⟨"s3.ts", 0⟩]).success = true ∧
      (∃ lines, (finalize_live_check (fun n => if n == "s2.ts" then some "bad s2" else none)
          [⟨"s1.ts", 0⟩, ⟨"s2.ts", 0⟩, ⟨"s3.ts", 0⟩] emptySession
          [⟨"s1.ts", 0⟩, ⟨"s2.ts", 0⟩, ⟨"s3.ts", 0⟩]).manifest = some lines ∧
        lines.length = ([⟨"s1.ts", 0⟩, ⟨"s2.ts", 0⟩, ⟨"s3.ts", 0⟩] : List SegFile).length
          - (([⟨"s1.ts", 0⟩, ⟨"s2.ts", 0⟩, ⟨"s3.ts", 0⟩] : List SegFile).filter (fun f =>
              !((((fun n => if n == "s2.ts" then some "bad s2" else none :
                String → Option String)) f.name).isNone))).length) ∧
      (0 < (([⟨"s1.ts", 0⟩, ⟨"s2.ts", 0⟩, ⟨"s3.ts", 0⟩] : List SegFile).filter (fun f =>
            !((((fun n => if n == "s2.ts" then some "bad s2" else none :
              String → Option String)) f.name).isNone))).length →
        ∃ rep, (finalize_live_check (fun n => if n == "s2.ts" then some "bad s2" else none)
            [⟨"s1.ts", 0⟩, ⟨"s2.ts", 0⟩, ⟨"s3.ts", 0⟩] emptySession
            [⟨"s1.ts", 0⟩, ⟨"s2.ts", 0⟩, ⟨"s3.ts", 0⟩]).report = some rep ∧
          rep.total = ([⟨"s1.ts", 0⟩, ⟨"s2.ts", 0⟩, ⟨"s3.ts", 0⟩] : List SegFile).length ∧
          rep.valid = ([⟨"s1.ts", 0⟩, ⟨"s2.ts", 0⟩, ⟨"s3.ts", 0⟩] : List SegFile).length
            - (([⟨"s1.ts", 0⟩, ⟨"s2.ts", 0⟩, ⟨"s3.ts", 0⟩] : List SegFile).filter (fun f =>
                !((((fun n => if n == "s2.ts" then some "bad s2" else none :
                  String → Option String)) f.name).isNone))).length ∧
          rep.errors = (([⟨"s1.ts", 0⟩, ⟨"s2.ts", 0⟩, ⟨"s3.ts", 0⟩] : List SegFile).filter (fun f =>
              !((((fun n => if n == "s2.ts" then some "bad s2" else none :
                String → Option String)) f.name).isNone))).length ∧
          rep.reasons.length = (([⟨"s1.ts", 0⟩, ⟨"s2.ts", 0⟩, ⟨"s3.ts", 0⟩] : List SegFile).filter (fun f =>
              !((((fun n => if n == "s2.ts" then some "bad s2" else none :
                String → Option String)) f.name).isNone))).length) ∧
      ((([⟨"s1.ts", 0⟩, ⟨"s2.ts", 0⟩, ⟨"s3.ts", 0⟩] : List SegFile).filter (fun f =>
          !((((fun n => if n == "s2.ts" then some "bad s2" else none :
            String → Option String)) f.name).isNone))).length = 0 →
        (finalize_live_check (fun n => if n == "s2.ts" then some "bad s2" else none)
          [⟨"s1.ts", 0⟩, ⟨"s2.ts", 0⟩, ⟨"s3.ts", 0⟩] emptySession
          [⟨"s1.ts", 0⟩, ⟨"s2.ts", 0⟩, ⟨"s3.ts", 0⟩]).report = none)) :=
  ⟨by decide, by decide, by decide, by decide,
   c7_error_report_counts (fun n => if n == "s2.ts" then some "bad s2" else none)
     [⟨"s1.ts", 0⟩, ⟨"s2.ts", 0⟩, ⟨"s3.ts", 0⟩] emptySession
     [⟨"s1.ts", 0⟩, ⟨"s2.ts", 0⟩, ⟨"s3.ts", 0⟩]
     (by decide) (by decide) (by decide) (by decide)⟩

/-! ## Claim C3 -/

/-- C3 counterexample: one segment that fails inspection.  The first
finalization pass classifies it invalid (its reason is recorded) and fails
with zero valid segments; because `finalize_live_check` never adds the
scanned files to the checked set, the retried pass schedules the very same
segment again (`finalizeUnchecked` still returns it) and appends its reason
a second time — the segment is re-validated and its recorded classification
is duplicated, contradicting "validated at most once per session
lifetime". -/
theorem c3_counterexample :
    c3r1.success = false ∧
    c3r1.state.errorLogs = ["bad"] ∧
    finalizeUnchecked c3files c3r1.state = c3files ∧
    c3r2.state.errorLogs = ["bad", "bad"] := by decide

/-- C3 amended: segments classified by an INCREMENTAL scan are never
re-validated — the scheduled batch is disjoint from the checked set, every
scanned segment enters the checked set, existing classifications are only
appended to, and a later finalization pass skips everything in the checked
set.  (Segments classified during a finalization pass that fails with zero
valid segments are not recorded as checked and are re-validated when
finalization is retried.) -/
theorem c3_amended (probe : String → Option String) (now : Int)
    (st : SessionState) (dirFiles : List SegFile) (arrival : List SegFile)
    (ha : arrival.Perm (get_unchecked_stable_files dirFiles st.checkedFiles now)) :
    (∀ f ∈ arrival, st.checkedFiles.contains f.name = false) ∧
    (check_live_folder_incremental probe arrival st).checkedFiles
        = st.checkedFiles ++ arrival.map (fun f => f.name) ∧
    (check_live_folder_incremental probe arrival st).validFiles
        = st.validFiles ++ (arrival.filter (fun f => (probe f.name).isNone)).map (fun f => f.name) ∧
    (check_live_folder_incremental probe arrival st).errorLogs
        = st.errorLogs ++ (arrival.filter (fun f => !((probe f.name).isNone))).map
            (fun f => (probe f.name).getD "") ∧
    (∀ f, st.checkedFiles.contains f.name = true → f ∉ finalizeUnchecked dirFiles st) := by
  refine ⟨?_, ?_, ?_, ?_, ?_⟩
  · intro f hf
    have hmem : f ∈ get_unchecked_stable_files dirFiles st.checkedFiles now := ha.subset hf
    have hpred := (List.mem_filter.mp hmem).2
    have h1 : (!(st.checkedFiles.contains f.name)) = true := by
      exact (Bool.and_eq_true _ _ |>.mp hpred).1
    simpa using h1
  · rw [check_incremental_spec]
  · rw [check_incremental_spec]
  · rw [check_incremental_spec]
  · intro f hc hmem
    have hpred := (List.mem_filter.mp hmem).2
    rw [hc] at hpred
    simp at hpred

/-- Witness for C3 amended at a concrete input: one already-checked and one
new stable segment. -/
theorem c3_amended_witness :
    ([(⟨"s2.ts", 0⟩ : SegFile)]).Perm
      (get_unchecked_stable_files [⟨"s1.ts", 0⟩, ⟨"s2.ts", 0⟩]
        (SessionState.mk ["s1.ts"] ["s1.ts"] []).checkedFiles 100) ∧
    ((∀ f ∈ [(⟨"s2.ts", 0⟩ : SegFile)],
        (SessionState.mk ["s1.ts"] ["s1.ts"] []).checkedFiles.contains f.name = false) ∧
     (check_live_folder_incremental probeAllValid [⟨"s2.ts", 0⟩]
        ⟨["s1.ts"], ["s1.ts"], []⟩).checkedFiles
        = (SessionState.mk ["s1.ts"] ["s1.ts"] []).checkedFiles
          ++ ([(⟨"s2.ts", 0⟩ : SegFile)]).map (fun f => f.name) ∧
     (check_live_folder_incremental probeAllValid [⟨"s2.ts", 0⟩]
        ⟨["s1.ts"], ["s1.ts"], []⟩).validFiles
        = (SessionState.mk ["s1.ts"] ["s1.ts"] []).validFiles
          ++ (([(⟨"s2.ts", 0⟩ : SegFile)]).filter
              (fun f => (probeAllValid f.name).isNone)).map (fun f => f.name) ∧
     (check_live_folder_incremental probeAllValid [⟨"s2.ts", 0⟩]
        ⟨["s1.ts"], ["s1.ts"], []⟩).errorLogs
        = (SessionState.mk ["s1.ts"] ["s1.ts"] []).errorLogs
          ++ (([(⟨"s2.ts", 0⟩ : SegFile)]).filter
              (fun f => !((probeAllValid f.name).isNone))).map
              (fun f => (probeAllValid f.name).getD "") ∧
     (∀ f, (SessionState.mk ["s1.ts"] ["s1.ts"] []).checkedFiles.contains f.name = true →
        f ∉ finalizeUnchecked [⟨"s1.ts", 0⟩, ⟨"s2.ts", 0⟩] ⟨["s1.ts"], ["s1.ts"], []⟩)) :=
  ⟨by decide,
   c3_amended probeAllValid 100 ⟨["s1.ts"], ["s1.ts"], []⟩
     [⟨"s1.ts", 0⟩, ⟨"s2.ts", 0⟩] [⟨"s2.ts", 0⟩] (by decide)⟩

/-! ## Lemmas: sorting, filtering and the pairing loop -/

theorem twoStepInduction {α : Type} {P : List α → Prop} (h0 : P [])
    (h1 : ∀ a, P [a]) (h2 : ∀ a b l, P l → P (b :: l) → P (a :: b :: l)) :
    ∀ l, P l := by
  have key : ∀ l : List α, P l ∧ ∀ a, P (a :: l) := by
    intro l
    induction l with
    | nil => exact ⟨h0, h1⟩
    | cons b t ih => exact ⟨ih.2 b, fun a => h2 a b t ih.1 (ih.2 b)⟩
  exact fun l => (key l).1

theorem contains_iff_mem {l : List String} {x : String} :
    l.contains x = true ↔ x ∈ l := by
  simp [List.contains]

theorem contains_false_iff {l : List String} {x : String} :
    l.contains x = false ↔ x ∉ l := by
  rw [← Bool.not_eq_true, not_iff_not]
  exact contains_iff_mem

theorem filter_orderedInsert {α : Type} (r : α → α → Prop) [DecidableRel r]
    [IsTrans α r] (p : α → Bool) (a : α) :
    ∀ l : List α, l.Sorted r →
      (List.orderedInsert r a l).filter p
        = if p a then List.orderedInsert r a (l.filter p) else l.filter p := by
  intro l
  induction l with
  | nil =>
    intro _
    by_cases hpa : p a <;> simp [hpa]
  | cons b t ih =>
    intro hs
    have hst : t.Sorted r := hs.of_cons
    by_cases hrab : r a b
    · rw [List.orderedInsert_of_le r t hrab]
      by_cases hpa : p a
      · rw [if_pos hpa]
        cases hfl : (b :: t).filter p with
        | nil => simp [List.filter_cons, hpa, hfl]
        | cons c cs =>
          have hcmem : c ∈ b :: t :=
            List.mem_of_mem_filter (by rw [hfl]; exact List.mem_cons_self _ _)
          have hrac : r a c := by
            rcases List.mem_cons.mp hcmem with hcb | hct
            · rw [hcb]
              exact hrab
            · exact Trans.trans hrab (List.rel_of_sorted_cons hs c hct)
          rw [List.filter_cons, if_pos hpa, hfl, List.orderedInsert_of_le r cs hrac]
      · simp [List.filter_cons, hpa]
    · have hins : List.orderedInsert r a (b :: t) = b :: List.orderedInsert r a t := by
        simp [List.orderedInsert, hrab]
      rw [hins, List.filter_cons, List.filter_cons, ih hst]
      by_cases hpa : p a <;> by_cases hpb : p b <;>
        simp [hpa, hpb, List.orderedInsert, hrab]

theorem filter_insertionSort {α : Type} (r : α → α → Prop) [DecidableRel r]
    [IsTotal α r] [IsTrans α r] (p : α → Bool) :
    ∀ l : List α, (List.insertionSort r l).filter p
      = List.insertionSort r (l.filter p) := by
  intro l
  induction l with
  | nil => simp
  | cons a t ih =>
    rw [List.insertionSort,
      filter_orderedInsert r p a _ (List.sorted_insertionSort r t), ih]
    by_cases hpa : p a <;> simp [hpa, List.filter_cons, List.insertionSort]

theorem combinedNames_subset (subs : List String) :
    ∀ L : List MFolder, ∀ x ∈ combinedNames subs L, x ∈ L.map (fun f => f.name) := by
  refine twoStepInduction ?_ ?_ ?_
  · intro x hx
    simp [combinedNames] at hx
  · intro a x hx
    simp [combinedNames] at hx
  · intro f1 f2 rest ihRest ihCons x hx
    by_cases hsm : should_merge_folders subs f1 f2 = true
    · simp [combinedNames, hsm] at hx
      rcases hx with hx | hx | hx
      · simp [hx]
      · simp [hx]
      · have := ihRest x hx
        simp only [List.map_cons, List.mem_cons]
        right; right
        exact this
    · simp [combinedNames, hsm] at hx
      have := ihCons x hx
      simp only [List.map_cons, List.mem_cons] at this ⊢
      tauto

theorem singleNames_subset (subs : List String) :
    ∀ L : List MFolder, ∀ x ∈ singleNames subs L, x ∈ L.map (fun f => f.name) := by
  refine twoStepInduction ?_ ?_ ?_
  · intro x hx
    simp [singleNames] at hx
  · intro a x hx
    simp [singleNames] at hx
    simp [hx]
  · intro f1 f2 rest ihRest ihCons x hx
    by_cases hsm : should_merge_folders subs f1 f2 = true
    · simp [singleNames, hsm] at hx
      have := ihRest x hx
      simp only [List.map_cons, List.mem_cons]
      right; right
      exact this
    · simp [singleNames, hsm] at hx
      rcases hx with hx | hx
      · simp [hx]
      · have := ihCons x hx
        simp only [List.map_cons, List.mem_cons] at this ⊢
        tauto

theorem names_cover (subs : List String) :
    ∀ L : List MFolder, ∀ f ∈ L,
      f.name ∈ singleNames subs L ∨ f.name ∈ combinedNames subs L := by
  refine twoStepInduction ?_ ?_ ?_
  · intro f hf
    simp at hf
  · intro a f hf
    rw [List.mem_singleton] at hf
    subst hf
    left
    simp [singleNames]
  · intro f1 f2 rest ihRest ihCons f hf
    by_cases hsm : should_merge_folders subs f1 f2 = true
    · simp only [combinedNames, singleNames, hsm, if_pos]
      rcases List.mem_cons.mp hf with h | h
      · right
        rw [h]
        exact List.mem_cons_self _ _
      · rcases List.mem_cons.mp h with h2 | h2
        · right
          rw [h2]
          exact List.mem_cons_of_mem _ (List.mem_cons_self _ _)
        · rcases ihRest f h2 with hs | hc
          · left; exact hs
          · right
            exact List.mem_cons_of_mem _ (List.mem_cons_of_mem _ hc)
    · rw [Bool.not_eq_true] at hsm
      simp only [combinedNames, singleNames, hsm, Bool.false_eq_true, if_neg, ite_false]
      rcases List.mem_cons.mp hf with h | h
      · left
        rw [h]
        exact List.mem_cons_self _ _
      · rcases ihCons f h with hs | hc
        · left
          exact List.mem_cons_of_mem _ hs
        · right
          exact hc

theorem combined_single_disjoint (subs : List String) :
    ∀ L : List MFolder, (L.map (fun f => f.name)).Nodup →
      ∀ x ∈ combinedNames subs L, x ∉ singleNames subs L := by
  refine twoStepInduction ?_ ?_ ?_
  · intro _ x hx
    simp [combinedNames] at hx
  · intro a _ x hx
    simp [combinedNames] at hx
  · intro f1 f2 rest ihRest ihCons hnd x hx
    rw [List.map_cons, List.map_cons] at hnd
    obtain ⟨hn1, hndtail⟩ := List.nodup_cons.mp hnd
    obtain ⟨hn2, hndrest⟩ := List.nodup_cons.mp hndtail
    by_cases hsm : should_merge_folders subs f1 f2 = true
    · simp [combinedNames, singleNames, hsm] at hx ⊢
      rcases hx with hx | hx | hx
      · subst hx
        intro hmem
        exact hn1 (List.mem_cons_of_mem _ (singleNames_subset subs rest f1.name hmem))
      · subst hx
        intro hmem
        exact hn2 (singleNames_subset subs rest f2.name hmem)
      · exact ihRest hndrest x hx
    · simp [combinedNames, singleNames, hsm] at hx ⊢
      constructor
      · intro heq
        apply hn1
        rw [← heq]
        have := combinedNames_subset subs (f2 :: rest) x hx
        rw [List.map_cons] at this
        exact this
      · exact ihCons (by rw [List.map_cons]; exact hndtail) x hx

theorem itemNames_split (subs : List String) :
    ∀ L : List MFolder, ∀ x ∈ (pairUp subs L).map (fun i => i.name),
      x ∈ singleNames subs L ∨
        ∃ i ∈ pairUp subs L, i.combined = true ∧ i.name = x := by
  refine twoStepInduction ?_ ?_ ?_
  · intro x hx
    simp [pairUp] at hx
  · intro a x hx
    simp [pairUp, singleItem] at hx
    left
    simp [singleNames, hx]
  · intro f1 f2 rest ihRest ihCons x hx
    by_cases hsm : should_merge_folders subs f1 f2 = true
    · simp [pairUp, hsm] at hx
      rcases hx with hx | hx
      · right
        refine ⟨mergedItemOf f1 f2, ?_, rfl, ?_⟩
        · simp [pairUp, hsm]
        · rw [hx]
      · rcases ihRest x (by simpa using hx) with hs | ⟨i, hi, hic, hin⟩
        · left
          simp [singleNames, hsm]
          exact hs
        · right
          exact ⟨i, by simp [pairUp, hsm]; right; exact hi, hic, hin⟩
    · simp [pairUp, hsm, singleItem] at hx
      rcases hx with hx | hx
      · left
        simp [singleNames, hsm, hx]
      · rcases ihCons x (by simpa using hx) with hs | ⟨i, hi, hic, hin⟩
        · left
          simp [singleNames, hsm]
          right
          exact hs
        · right
          exact ⟨i, by simp [pairUp, hsm]; right; exact hi, hic, hin⟩

theorem singleNames_subset_itemNames (subs : List String) :
    ∀ L : List MFolder, ∀ x ∈ singleNames subs L,
      x ∈ (pairUp subs L).map (fun i => i.name) := by
  refine twoStepInduction ?_ ?_ ?_
  · intro x hx
    simp [singleNames] at hx
  · intro a x hx
    simp [singleNames] at hx
    simp [pairUp, singleItem, hx]
  · intro f1 f2 rest ihRest ihCons x hx
    by_cases hsm : should_merge_folders subs f1 f2 = true
    · simp [singleNames, hsm] at hx
      have := ihRest x hx
      simp [pairUp, hsm]
      right
      simpa using this
    · simp [singleNames, hsm] at hx
      rcases hx with hx | hx
      · simp [pairUp, hsm, singleItem, hx]
      · have := ihCons x hx
        simp [pairUp, hsm]
        right
        simpa using this

theorem pairUp_filelistExists (subs : List String) :
    ∀ L : List MFolder, (∀ f ∈ L, f.hasFilelist = true) →
      ∀ i ∈ pairUp subs L, i.filelistExists = true := by
  refine twoStepInduction ?_ ?_ ?_
  · intro _ i hi
    simp [pairUp] at hi
  · intro a hall i hi
    simp [pairUp] at hi
    rw [hi]
    exact hall a (List.mem_singleton_self a)
  · intro f1 f2 rest ihRest ihCons hall i hi
    by_cases hsm : should_merge_folders subs f1 f2 = true
    · simp [pairUp, hsm] at hi
      rcases hi with hi | hi
      · rw [hi]
        rfl
      · exact ihRest (fun f hf => hall f (by simp [hf])) i hi
    · simp [pairUp, hsm] at hi
      rcases hi with hi | hi
      · rw [hi]
        exact hall f1 (by simp)
      · exact ihCons (fun f hf => hall f (by
          rcases List.mem_cons.mp hf with h | h
          · simp [h]
          · simp [h])) i hi

theorem pairUp_filter_stable (subs : List String) :
    ∀ L : List MFolder, (L.map (fun f => f.name)).Nodup →
      pairUp subs (L.filter (fun f => (combinedNames subs L).contains f.name))
        = (pairUp subs L).filter (fun i => i.combined) := by
  refine twoStepInduction ?_ ?_ ?_
  · intro _
    simp [pairUp, combinedNames]
  · intro a _
    simp [pairUp, combinedNames, singleItem]
  · intro f1 f2 rest ihRest ihCons hnd
    rw [List.map_cons, List.map_cons] at hnd
    obtain ⟨hn1, hndtail⟩ := List.nodup_cons.mp hnd
    obtain ⟨hn2, hndrest⟩ := List.nodup_cons.mp hndtail
    by_cases hsm : should_merge_folders subs f1 f2 = true
    · have hcn : combinedNames subs (f1 :: f2 :: rest)
          = f1.name :: f2.name :: combinedNames subs rest := by
        simp [combinedNames, hsm]
      have hp1 : (combinedNames subs (f1 :: f2 :: rest)).contains f1.name = true := by
        rw [hcn]
        exact contains_iff_mem.mpr (List.mem_cons_self _ _)
      have hp2 : (combinedNames subs (f1 :: f2 :: rest)).contains f2.name = true := by
        rw [hcn]
        exact contains_iff_mem.mpr (List.mem_cons_of_mem _ (List.mem_cons_self _ _))
      have hrest : rest.filter (fun f =>
            (combinedNames subs (f1 :: f2 :: rest)).contains f.name)
          = rest.filter (fun f => (combinedNames subs rest).contains f.name) := by
        apply List.filter_congr
        intro g hg
        rw [hcn]
        have hne1 : ¬(g.name = f1.name) := by
          intro heq
          exact hn1 (List.mem_cons_of_mem _ (by
            rw [← heq]
            exact List.mem_map_of_mem (fun f => f.name) hg))
        have hne2 : ¬(g.name = f2.name) := by
          intro heq
          exact hn2 (by
            rw [← heq]
            exact List.mem_map_of_mem (fun f => f.name) hg)
        simp [List.contains_cons, hne1, hne2]
      rw [List.filter_cons, List.filter_cons, hp1, hp2]
      simp only [if_pos]
      rw [hrest]
      have hPairLhs : pairUp subs (f1 :: f2 :: rest.filter (fun f =>
            (combinedNames subs rest).contains f.name))
          = mergedItemOf f1 f2 :: pairUp subs (rest.filter (fun f =>
              (combinedNames subs rest).contains f.name)) := by
        simp [pairUp, hsm]
      have hPairRhs : (pairUp subs (f1 :: f2 :: rest)).filter (fun i => i.combined)
          = mergedItemOf f1 f2 :: (pairUp subs rest).filter (fun i => i.combined) := by
        simp [pairUp, hsm, List.filter_cons, mergedItemOf]
      rw [hPairLhs, hPairRhs, ihRest hndrest]
    · have hcn : combinedNames subs (f1 :: f2 :: rest)
          = combinedNames subs (f2 :: rest) := by
        simp [combinedNames, hsm]
      have hp1 : (combinedNames subs (f1 :: f2 :: rest)).contains f1.name = false := by
        rw [hcn]
        apply contains_false_iff.mpr
        intro hmem
        exact hn1 (by
          have := combinedNames_subset subs (f2 :: rest) f1.name hmem
          rw [List.map_cons] at this
          exact this)
      have hrest : (f2 :: rest).filter (fun f =>
            (combinedNames subs (f1 :: f2 :: rest)).contains f.name)
          = (f2 :: rest).filter (fun f =>
            (combinedNames subs (f2 :: rest)).contains f.name) := by
        apply List.filter_congr
        intro g _
        rw [hcn]
      have hsplit : (f1 :: f2 :: rest).filter (fun f =>
            (combinedNames subs (f1 :: f2 :: rest)).contains f.name)
          = (f2 :: rest).filter (fun f =>
            (combinedNames subs (f2 :: rest)).contains f.name) := by
        rw [List.filter_cons, hp1]
        simp only [Bool.false_eq_true, if_false]
        exact hrest
      rw [hsplit, ihCons (by rw [List.map_cons]; exact hndtail)]
      have hPairRhs : (pairUp subs (f1 :: f2 :: rest)).filter (fun i => i.combined)
          = (pairUp subs (f2 :: rest)).filter (fun i => i.combined) := by
        simp [pairUp, hsm, List.filter_cons, singleItem]
      rw [hPairRhs]

/-! ## Lemmas: the merge pass fold -/

theorem merge_item_const_fields (oracle : String → Bool) (w : MergeWorld)
    (i : ReadyItem) :
    (merge_item oracle w i).2.folders = w.folders ∧
    (merge_item oracle w i).2.subtitles = w.subtitles ∧
    (merge_item oracle w i).2.markers = w.markers := by
  unfold merge_item
  split_ifs <;> simp

theorem processItems_const_fields (oracle : String → Bool) :
    ∀ (items : List ReadyItem) (w : MergeWorld),
    (processItems oracle items w).2.folders = w.folders ∧
    (processItems oracle items w).2.subtitles = w.subtitles ∧
    (processItems oracle items w).2.markers = w.markers := by
  intro items
  induction items with
  | nil => intro w; simp [processItems]
  | cons i t ih =>
    intro w
    have h1 := merge_item_const_fields oracle w i
    have h2 := ih (merge_item oracle w i).2
    simp only [processItems]
    exact ⟨h2.1.trans h1.1, (h2.2.1).trans h1.2.1, (h2.2.2).trans h1.2.2⟩

theorem merge_item_outputs_mem (oracle : String → Bool) (w : MergeWorld)
    (i : ReadyItem) (ho : oracle i.name = true) (hf : i.filelistExists = true) :
    ∀ n, n ∈ (merge_item oracle w i).2.outputs ↔ n ∈ w.outputs ∨ n = i.name := by
  intro n
  unfold merge_item
  rw [hf]
  simp only [Bool.not_true, Bool.false_eq_true, if_false]
  by_cases hc : w.outputs.contains i.name = true
  · rw [if_pos hc]
    constructor
    · intro h; exact Or.inl h
    · intro h
      rcases h with h | h
      · exact h
      · rw [h]
        exact contains_iff_mem.mp hc
  · rw [if_neg hc, ho]
    simp only [if_true, List.mem_cons]
    tauto

theorem processItems_outputs_mem (oracle : String → Bool) :
    ∀ (items : List ReadyItem) (w : MergeWorld),
    (∀ i ∈ items, oracle i.name = true ∧ i.filelistExists = true) →
    ∀ n, n ∈ (processItems oracle items w).2.outputs
      ↔ n ∈ w.outputs ∨ n ∈ items.map (fun i => i.name) := by
  intro items
  induction items with
  | nil =>
    intro w _ n
    simp [processItems]
  | cons i t ih =>
    intro w hall n
    have hi := hall i (List.mem_cons_self _ _)
    have hmem := merge_item_outputs_mem oracle w i hi.1 hi.2 n
    simp only [processItems]
    rw [ih (merge_item oracle w i).2 (fun j hj => hall j (List.mem_cons_of_mem _ hj)) n,
      hmem]
    simp only [List.map_cons, List.mem_cons]
    tauto

theorem processItems_noop (oracle : String → Bool) :
    ∀ (items : List ReadyItem) (w : MergeWorld),
    (∀ i ∈ items, i.filelistExists = true ∧ w.outputs.contains i.name = true) →
    processItems oracle items w = (items.length, w) := by
  intro items
  induction items with
  | nil =>
    intro w _
    simp [processItems]
  | cons i t ih =>
    intro w hall
    have hi := hall i (List.mem_cons_self _ _)
    have hstep : merge_item oracle w i = (true, w) := by
      unfold merge_item
      rw [hi.1, hi.2]
      simp
    simp only [processItems, hstep]
    rw [ih w (fun j hj => hall j (List.mem_cons_of_mem _ hj))]
    simp [List.length_cons]
    omega

theorem candidateFolders_mem (w : MergeWorld) :
    ∀ f ∈ candidateFolders w,
      f ∈ w.folders ∧ f.hasFilelist = true ∧ w.outputs.contains f.name = false := by
  intro f hf
  have hmem : f ∈ w.folders.filter
      (fun f => f.hasFilelist && !(w.outputs.contains f.name)) :=
    (List.perm_insertionSort mtimeLeM _).subset hf
  obtain ⟨hmem2, hpred⟩ := List.mem_filter.mp hmem
  rw [Bool.and_eq_true] at hpred
  refine ⟨hmem2, hpred.1, ?_⟩
  rw [Bool.not_eq_true'] at hpred
  exact hpred.2

theorem candidateFolders_nodup_names (w : MergeWorld)
    (hnodup : (w.folders.map (fun f => f.name)).Nodup) :
    ((candidateFolders w).map (fun f => f.name)).Nodup := by
  have hsub : ((w.folders.filter
      (fun f => f.hasFilelist && !(w.outputs.contains f.name))).map
        (fun f => f.name)).Nodup :=
    ((List.filter_sublist w.folders).map (fun f => f.name)).nodup hnodup
  exact (((List.perm_insertionSort mtimeLeM _).map (fun f => f.name)).symm).nodup hsub

theorem candidates_after_pass (oracle : String → Bool) (w0 : MergeWorld)
    (horacle : ∀ n, oracle n = true)
    (hnodup : (w0.folders.map (fun f => f.name)).Nodup)
    (hnocollide : ∀ f ∈ w0.folders, ∀ i ∈ find_ready_folders w0,
        i.combined = true → f.name ≠ i.name) :
    candidateFolders (merge_all_ready oracle w0).2
      = (candidateFolders w0).filter (fun f =>
          (combinedNames w0.subtitles (candidateFolders w0)).contains f.name) := by
  have hconst := processItems_const_fields oracle (find_ready_folders w0) w0
  have hfolders : (merge_all_ready oracle w0).2.folders = w0.folders := hconst.1
  have hitems_all : ∀ i ∈ find_ready_folders w0,
      oracle i.name = true ∧ i.filelistExists = true := by
    intro i hi
    exact ⟨horacle i.name,
      pairUp_filelistExists w0.subtitles (candidateFolders w0)
        (fun f hf => (candidateFolders_mem w0 f hf).2.1) i hi⟩
  have hout : ∀ n, n ∈ (merge_all_ready oracle w0).2.outputs
      ↔ n ∈ w0.outputs ∨ n ∈ (find_ready_folders w0).map (fun i => i.name) :=
    processItems_outputs_mem oracle (find_ready_folders w0) w0 hitems_all
  have hL0nodup := candidateFolders_nodup_names w0 hnodup
  have hpred : w0.folders.filter (fun f =>
        f.hasFilelist && !((merge_all_ready oracle w0).2.outputs.contains f.name))
      = (w0.folders.filter (fun f =>
          f.hasFilelist && !(w0.outputs.contains f.name))).filter (fun f =>
            !((merge_all_ready oracle w0).2.outputs.contains f.name)) := by
    rw [List.filter_filter]
    apply List.filter_congr
    intro f _
    by_cases h1 : f.name ∈ (merge_all_ready oracle w0).2.outputs
    · simp [h1]
    · have h0 : f.name ∉ w0.outputs := by
        intro hmem
        exact h1 ((hout f.name).mpr (Or.inl hmem))
      simp [h1, h0]
  have hstep : candidateFolders (merge_all_ready oracle w0).2
      = (candidateFolders w0).filter (fun f =>
          !((merge_all_ready oracle w0).2.outputs.contains f.name)) := by
    rw [candidateFolders, hfolders, hpred,
      ← filter_insertionSort mtimeLeM
        (fun f => !((merge_all_ready oracle w0).2.outputs.contains f.name))]
    rfl
  rw [hstep]
  apply List.filter_congr
  intro f hfL0
  have hfp := candidateFolders_mem w0 f hfL0
  have key : f.name ∈ (merge_all_ready oracle w0).2.outputs
      ↔ f.name ∉ combinedNames w0.subtitles (candidateFolders w0) := by
    constructor
    · intro hmem hcn_mem
      rcases (hout f.name).mp hmem with h0 | hitem
      · exact (contains_false_iff.mp hfp.2.2) h0
      · rcases itemNames_split w0.subtitles (candidateFolders w0) f.name hitem with
          hs | ⟨i, hi, hic, hin⟩
        · exact combined_single_disjoint w0.subtitles (candidateFolders w0)
            hL0nodup f.name hcn_mem hs
        · exact (hnocollide f hfp.1 i hi hic) hin.symm
    · intro hncn
      rcases names_cover w0.subtitles (candidateFolders w0) f hfL0 with hs | hc
      · exact (hout f.name).mpr
          (Or.inr (singleNames_subset_itemNames w0.subtitles (candidateFolders w0) f.name hs))
      · exact absurd hc hncn
  by_cases hw : f.name ∈ (merge_all_ready oracle w0).2.outputs
  · have hbw : (merge_all_ready oracle w0).2.outputs.contains f.name = true :=
      contains_iff_mem.mpr hw
    have hbc : (combinedNames w0.subtitles (candidateFolders w0)).contains f.name = false :=
      contains_false_iff.mpr (key.mp hw)
    rw [hbw, hbc]
    rfl
  · have hcn_mem : f.name ∈ combinedNames w0.subtitles (candidateFolders w0) := by
      by_contra hncn
      exact hw (key.mpr hncn)
    have hbw : (merge_all_ready oracle w0).2.outputs.contains f.name = false :=
      contains_false_iff.mpr hw
    have hbc : (combinedNames w0.subtitles (candidateFolders w0)).contains f.name = true :=
      contains_iff_mem.mpr hcn_mem
    rw [hbw, hbc]
    rfl

/-! ## Claim C2 -/

/-- C2 counterexample: world `c2World` holds two finalized sessions that
pair into one combined unit.  The first merge pass concatenates them
(one oracle call).  With no session newly finalized in between, the second
pass re-discovers the pair (the per-folder outputs `a.mp4` / `b.mp4` never
exist) and reports it as a success again via the already-merged
short-circuit: the reported success count is 1, not 0. -/
theorem c2_counterexample :
    (merge_all_ready oracleTrue ((merge_all_ready oracleTrue c2World).2)).1 ≠ 0 := by
  decide

/-- C2 amended: when the concatenation oracle succeeds on every invocation,
folder names are distinct, and no folder is named like a combined output,
a second merge pass with no newly finalized sessions performs zero new
oracle invocations and leaves the whole world (outputs, markers, folders,
oracle-call count) unchanged — but it re-reports one success per combined
unit of the first pass instead of zero. -/
theorem c2_amended (oracle : String → Bool) (w0 : MergeWorld)
    (horacle : ∀ n, oracle n = true)
    (hnodup : (w0.folders.map (fun f => f.name)).Nodup)
    (hnocollide : ∀ f ∈ w0.folders, ∀ i ∈ find_ready_folders w0,
        i.combined = true → f.name ≠ i.name) :
    merge_all_ready oracle ((merge_all_ready oracle w0).2)
      = (((find_ready_folders w0).filter (fun i => i.combined)).length,
         (merge_all_ready oracle w0).2) := by
  have hsubs : ((merge_all_ready oracle w0).2).subtitles = w0.subtitles :=
    (processItems_const_fields oracle (find_ready_folders w0) w0).2.1
  have hcand := candidates_after_pass oracle w0 horacle hnodup hnocollide
  have hstable := pairUp_filter_stable w0.subtitles (candidateFolders w0)
    (candidateFolders_nodup_names w0 hnodup)
  have hitems2 : find_ready_folders ((merge_all_ready oracle w0).2)
      = (find_ready_folders w0).filter (fun i => i.combined) := by
    rw [find_ready_folders, hsubs, hcand]
    exact hstable
  have hitems_all : ∀ i ∈ find_ready_folders w0,
      oracle i.name = true ∧ i.filelistExists = true := fun i hi =>
    ⟨horacle i.name, pairUp_filelistExists w0.subtitles (candidateFolders w0)
      (fun f hf => (candidateFolders_mem w0 f hf).2.1) i hi⟩
  have hall2 : ∀ i ∈ find_ready_folders ((merge_all_ready oracle w0).2),
      i.filelistExists = true ∧
      ((merge_all_ready oracle w0).2).outputs.contains i.name = true := by
    rw [hitems2]
    intro i hi
    have hi1 : i ∈ find_ready_folders w0 := List.mem_of_mem_filter hi
    refine ⟨(hitems_all i hi1).2, ?_⟩
    apply contains_iff_mem.mpr
    exact (processItems_outputs_mem oracle (find_ready_folders w0) w0
        hitems_all i.name).mpr
      (Or.inr (List.mem_map_of_mem _ hi1))
  have hfinal := processItems_noop oracle
    (find_ready_folders ((merge_all_ready oracle w0).2))
    ((merge_all_ready oracle w0).2) hall2
  calc merge_all_ready oracle ((merge_all_ready oracle w0).2)
      = processItems oracle (find_ready_folders ((merge_all_ready oracle w0).2))
          ((merge_all_ready oracle w0).2) := rfl
    _ = ((find_ready_folders ((merge_all_ready oracle w0).2)).length,
          (merge_all_ready oracle w0).2) := hfinal
    _ = (((find_ready_folders w0).filter (fun i => i.combined)).length,
          (merge_all_ready oracle w0).2) := by rw [hitems2]

/-- Witness for C2 amended at the concrete two-session world. -/
theorem c2_amended_witness :
    (∀ n, oracleTrue n = true) ∧
    ((c2World.folders.map (fun f => f.name)).Nodup) ∧
    (∀ f ∈ c2World.folders, ∀ i ∈ find_ready_folders c2World,
        i.combined = true → f.name ≠ i.name) ∧
    merge_all_ready oracleTrue ((merge_all_ready oracleTrue c2World).2)
      = (((find_ready_folders c2World).filter (fun i => i.combined)).length,
         (merge_all_ready oracleTrue c2World).2) :=
  ⟨fun _ => rfl, by decide, by decide,
   c2_amended oracleTrue c2World (fun _ => rfl) (by decide) (by decide)⟩

/-! ## Claim C4 -/

/-- C4 counterexample: after a successful merge of the combined unit built
from sessions `a` and `b` (the output artifact `a_b_merged` exists), NO
per-session merge marker is written (`markers` is still empty) and the next
candidate scan still returns both sessions — they are not excluded. -/
theorem c4_counterexample :
    (merge_all_ready oracleTrue c4World).2.outputs = ["a_b_merged"] ∧
    (merge_all_ready oracleTrue c4World).2.markers = [] ∧
    ((find_ready_folders ((merge_all_ready oracleTrue c4World).2)).map
        (fun i => i.folderNames)) = [["a", "b"]] := by
  decide

/-- C4 amended: a merge pass never writes any per-session merge marker
(there is no marker-writing code in `merge_item`), and after a fully
successful pass every session that was swallowed into a combined unit is
still present in the following candidate scan — such sessions are skipped
only by the existing-output check inside `merge_item`, not excluded from
the scan. -/
theorem c4_amended (oracle : String → Bool) (w : MergeWorld)
    (horacle : ∀ n, oracle n = true)
    (hnodup : (w.folders.map (fun f => f.name)).Nodup)
    (hnocollide : ∀ f ∈ w.folders, ∀ i ∈ find_ready_folders w,
        i.combined = true → f.name ≠ i.name) :
    (merge_all_ready oracle w).2.markers = w.markers ∧
    (∀ f ∈ candidateFolders w,
      f.name ∈ combinedNames w.subtitles (candidateFolders w) →
      f ∈ candidateFolders (merge_all_ready oracle w).2) := by
  constructor
  · exact (processItems_const_fields oracle (find_ready_folders w) w).2.2
  · intro f hf hcn
    rw [candidates_after_pass oracle w horacle hnodup hnocollide]
    exact List.mem_filter.mpr ⟨hf, contains_iff_mem.mpr hcn⟩

/-- Witness for C4 amended at the concrete two-session world. -/
theorem c4_amended_witness :
    (∀ n, oracleTrue n = true) ∧
    ((c4World.folders.map (fun f => f.name)).Nodup) ∧
    (∀ f ∈ c4World.folders, ∀ i ∈ find_ready_folders c4World,
        i.combined = true → f.name ≠ i.name) ∧
    ((merge_all_ready oracleTrue c4World).2.markers = c4World.markers ∧
     (∀ f ∈ candidateFolders c4World,
        f.name ∈ combinedNames c4World.subtitles (candidateFolders c4World) →
        f ∈ candidateFolders (merge_all_ready oracleTrue c4World).2)) :=
  ⟨fun _ => rfl, by decide, by decide,
   c4_amended oracleTrue c4World (fun _ => rfl) (by decide) (by decide)⟩

/-! ## Lemmas: the two-process lock protocol -/

set_option maxHeartbeats 4000000 in
theorem lockInv_step : ∀ (w : Bool) (s : LockSt),
    lockInv s = true → lockInv (lockStep w s) = true := by
  intro w s
  obtain ⟨⟨pa, va⟩, ⟨pb, vb⟩, lk, out⟩ := s
  cases w <;> cases pa <;> cases va <;> cases pb <;> cases vb <;>
    cases lk <;> cases out <;> decide

theorem lockInv_fold : ∀ (sched : List Bool) (s : LockSt),
    lockInv s = true → lockInv (sched.foldl (fun s w => lockStep w s) s) = true := by
  intro sched
  induction sched with
  | nil => intro s h; exact h
  | cons w t ih =>
    intro s h
    exact ih (lockStep w s) (lockInv_step w s h)

theorem lockInv_run (sched : List Bool) : lockInv (lockRun sched) = true :=
  lockInv_fold sched lockInit (by decide)

set_option maxHeartbeats 4000000 in
theorem lockInv_extract : ∀ s : LockSt, lockInv s = true → bothDone s = true →
    oracleCount s = 1 ∧
    ¬(invokedP s.a = true ∧ invokedP s.b = true) ∧
    (invokedP s.a = false →
      (s.a.via = .lockFail ∧ lockResult s.a.via = false) ∨
      ((s.a.via = .preOut ∨ s.a.via = .underOut) ∧ lockResult s.a.via = true)) ∧
    (invokedP s.b = false →
      (s.b.via = .lockFail ∧ lockResult s.b.via = false) ∨
      ((s.b.via = .preOut ∨ s.b.via = .underOut) ∧ lockResult s.b.via = true)) := by
  intro s
  obtain ⟨⟨pa, va⟩, ⟨pb, vb⟩, lk, out⟩ := s
  cases pa <;> cases va <;> cases pb <;> cases vb <;> cases lk <;> cases out <;> decide

/-! ## Claim C9 -/

/-- C9 counterexample: under the schedule `c9Sched` the first process runs
through its ffmpeg invocation (the output artifact now exists and the lock
is still held — after four of its steps it sits at `rel` holding the lock),
then the second process runs and returns success at its PRE-LOCK output
check (merger.py line 149).  Both executions overlap, exactly one oracle
invocation happened, but the second process neither failed its non-blocking
lock acquisition nor observed the output under the lock, contradicting the
claim's stated dichotomy. -/
theorem c9_counterexample :
    (lockRun [true, true, true, true]).lock = .byA ∧
    (lockRun [true, true, true, true]).a.pc = .rel ∧
    bothDone (lockRun c9Sched) = true ∧
    oracleCount (lockRun c9Sched) = 1 ∧
    invokedP (lockRun c9Sched).b = false ∧
    ¬((lockRun c9Sched).b.via = .lockFail ∨ (lockRun c9Sched).b.via = .underOut) := by
  decide

/-- C9 amended: for every interleaving of two processes running
`merge_item` on the same output name (output initially absent, filelist
present, oracle succeeding), once both have returned there was exactly one
concatenation invocation; the processes did not both invoke; and a process
that did not invoke either failed its non-blocking lock acquisition and
returned failure, or observed the existing output — at the pre-lock check
or at the under-lock double check — and returned success without
re-merging. -/
theorem c9_amended (sched : List Bool)
    (h : bothDone (lockRun sched) = true) :
    oracleCount (lockRun sched) = 1 ∧
    ¬(invokedP (lockRun sched).a = true ∧ invokedP (lockRun sched).b = true) ∧
    (invokedP (lockRun sched).a = false →
      ((lockRun sched).a.via = .lockFail ∧ lockResult (lockRun sched).a.via = false) ∨
      (((lockRun sched).a.via = .preOut ∨ (lockRun sched).a.via = .underOut) ∧
        lockResult (lockRun sched).a.via = true)) ∧
    (invokedP (lockRun sched).b = false →
      ((lockRun sched).b.via = .lockFail ∧ lockResult (lockRun sched).b.via = false) ∨
      (((lockRun sched).b.via = .preOut ∨ (lockRun sched).b.via = .underOut) ∧
        lockResult (lockRun sched).b.via = true)) :=
  lockInv_extract (lockRun sched) (lockInv_run sched) h

/-- Witness for C9 amended at a concrete schedule: the first process runs
to completion, then the second observes the output at its pre-lock check. -/
theorem c9_amended_witness :
    bothDone (lockRun [true, true, true, true, true, false]) = true ∧
    (oracleCount (lockRun [true, true, true, true, true, false]) = 1 ∧
     ¬(invokedP (lockRun [true, true, true, true, true, false]).a = true ∧
        invokedP (lockRun [true, true, true, true, true, false]).b = true) ∧
     (invokedP (lockRun [true, true, true, true, true, false]).a = false →
       ((lockRun [true, true, true, true, true, false]).a.via = .lockFail ∧
         lockResult (lockRun [true, true, true, true, true, false]).a.via = false) ∨
       (((lockRun [true, true, true, true, true, false]).a.via = .preOut ∨
          (lockRun [true, true, true, true, true, false]).a.via = .underOut) ∧
         lockResult (lockRun [true, true, true, true, true, false]).a.via = true)) ∧
     (invokedP (lockRun [true, true, true, true, true, false]).b = false →
       ((lockRun [true, true, true, true, true, false]).b.via = .lockFail ∧
         lockResult (lockRun [true, true, true, true, true, false]).b.via = false) ∨
       (((lockRun [true, true, true, true, true, false]).b.via = .preOut ∨
          (lockRun [true, true, true, true, true, false]).b.via = .underOut) ∧
         lockResult (lockRun [true, true, true, true, true, false]).b.via = true))) :=
  ⟨by decide, c9_amended [true, true, true, true, true, false] (by decide)⟩

/-! ## Claim C1 -/

/-- C1 failing input, demonstrating the code bug: folder `250101_x` was
created 5 seconds before the tick (age 5 s, far below
`MIN_FOLDER_AGE_FOR_FINALIZE = 30`), holds five quiet segment files, the
live signal is off and a subtitle exists.  The tick takes the finalizing
branch, writes the session's manifest and invokes the merge — `main_loop`
(checker.py lines 480-508) never consults `MIN_FOLDER_AGE_FOR_FINALIZE`
(nor the extended-wait configuration), so a session younger than the
configured minimum age IS finalized. -/
theorem c1_young_session_finalized :
    (mainLoopTick probeAllValid excNone subAll false c1raw 1000 emptyTickState).map
        (fun r => (r.branch, r.manifests.map Prod.fst, r.mergeInvoked))
      = Except.ok (TickBranch.finalizing, ["250101_x"], true) ∧
    1000 - c1folder.ctime < MIN_FOLDER_AGE_FOR_FINALIZE ∧
    MIN_FILES_FOR_CHECK ≤ c1folder.tsFiles.length := by
  decide

/-! ## Claim C8 -/

/-- C8 counterexample: two quiet, checkable, unmerged sessions `a` and `b`
(in this mtime order), live signal off, subtitle present, and processing
`a` raises during the post-stream final check.  The tick aborts with the
exception (`Except.error`): session `b` is never finalized (the error
payload records zero finalized folders) and the poll loop terminates —
there is no try/except around the final-check loop
(checker.py lines 485-502). -/
theorem c8_counterexample :
    mainLoopTick probeAllValid c8exc subAll false c8raw 1000 emptyTickState
      = Except.error ("a", []) := by
  decide

/-- C8 amended: in the streaming/recording branch (checker.py lines
463-475) the per-session try/except does isolate failures: whatever the
per-folder exception behavior `exc`, the tick completes normally and every
folder of the working set is attempted. -/
theorem c8_amended (probe : String → Option String) (exc : String → Bool)
    (subActual : String → Bool) (raw : List LiveFolder) (now : Int) (st : TickState)
    (h : (allFoldersOf raw).isEmpty = false) :
    (mainLoopTick probe exc subActual true raw now st).map
        (fun r => (r.branch, r.processed))
      = Except.ok (TickBranch.streaming, (allFoldersOf raw).map (fun f => f.name)) := by
  simp only [mainLoopTick, h, Bool.false_eq_true, if_false, Bool.true_or, if_true]
  rfl

/-- Witness for C8 amended: the same two-session listing, with `a` raising,
during a streaming tick — both sessions are still attempted. -/
theorem c8_amended_witness :
    (allFoldersOf c8raw).isEmpty = false ∧
    (mainLoopTick probeAllValid c8exc subAll true c8raw 1000 emptyTickState).map
        (fun r => (r.branch, r.processed))
      = Except.ok (TickBranch.streaming, (allFoldersOf c8raw).map (fun f => f.name)) :=
  ⟨by decide, c8_amended probeAllValid c8exc subAll c8raw 1000 emptyTickState (by decide)⟩

/-! ## Claim C10 -/

theorem finalizePass_no_exc (probe : String → Option String) (exc : String → Bool)
    (hexc : ∀ n, exc n = false) (now : Int) :
    ∀ (folders : List LiveFolder) (acc : FinalAcc),
    ∃ acc2, finalizePass probe exc now folders acc = .ok acc2 ∧
      acc2.finalized = acc.finalized ++
        (folders.filter (fun f => !(has_been_merged f) && has_files_to_check f)).map
          (fun f => f.name) := by
  intro folders
  induction folders with
  | nil =>
    intro acc
    exact ⟨acc, rfl, by simp⟩
  | cons f t ih =>
    intro acc
    by_cases hel : (!(has_been_merged f) && has_files_to_check f) = true
    · cases hr : (finalize_live_check probe f.tsFiles
          ((lookupRec acc.fs f.name).getD ⟨emptySession, 0, now⟩).session
          (finalizeUnchecked f.tsFiles
            ((lookupRec acc.fs f.name).getD ⟨emptySession, 0, now⟩).session)).success
      · have hstep : finalizeFolderStep probe exc now acc f
            = .ok { fs := setRec acc.fs f.name
                      { (lookupRec acc.fs f.name).getD ⟨emptySession, 0, now⟩ with
                        session := (finalize_live_check probe f.tsFiles
                          ((lookupRec acc.fs f.name).getD ⟨emptySession, 0, now⟩).session
                          (finalizeUnchecked f.tsFiles
                            ((lookupRec acc.fs f.name).getD ⟨emptySession, 0, now⟩).session)).state },
                    folders := acc.folders ++ [f],
                    manifests := acc.manifests,
                    finalized := acc.finalized ++ [f.name] } := by
          simp [finalizeFolderStep, hexc f.name, hel, hr]
        obtain ⟨acc2, hrun, hfin⟩ := ih _
        refine ⟨acc2, ?_, ?_⟩
        · rw [finalizePass, hstep]
          exact hrun
        · rw [hfin]
          simp [List.filter_cons, hel, List.append_assoc]
      · have hstep : finalizeFolderStep probe exc now acc f
            = .ok { fs := setRec acc.fs f.name
                      { (lookupRec acc.fs f.name).getD ⟨emptySession, 0, now⟩ with
                        session := (finalize_live_check probe f.tsFiles
                          ((lookupRec acc.fs f.name).getD ⟨emptySession, 0, now⟩).session
                          (finalizeUnchecked f.tsFiles
                            ((lookupRec acc.fs f.name).getD ⟨emptySession, 0, now⟩).session)).state },
                    folders := acc.folders ++ [{ f with hasManifest := true }],
                    manifests := acc.manifests ++
                      [(f.name, (finalize_live_check probe f.tsFiles
                        ((lookupRec acc.fs f.name).getD ⟨emptySession, 0, now⟩).session
                        (finalizeUnchecked f.tsFiles
                          ((lookupRec acc.fs f.name).getD ⟨emptySession, 0, now⟩).session)).manifest.getD [])],
                    finalized := acc.finalized ++ [f.name] } := by
          simp [finalizeFolderStep, hexc f.name, hel, hr]
        obtain ⟨acc2, hrun, hfin⟩ := ih _
        refine ⟨acc2, ?_, ?_⟩
        · rw [finalizePass, hstep]
          exact hrun
        · rw [hfin]
          simp [List.filter_cons, hel, List.append_assoc]
    · have hstep : finalizeFolderStep probe exc now acc f
          = .ok { acc with folders := acc.folders ++ [f] } := by
        simp [finalizeFolderStep, hexc f.name, hel]
      obtain ⟨acc2, hrun, hfin⟩ := ih { acc with folders := acc.folders ++ [f] }
      refine ⟨acc2, ?_, ?_⟩
      · rw [finalizePass, hstep]
        exact hrun
      · rw [hfin]
        simp [List.filter_cons, hel]

/-- C10: on a tick where the live signal is false, no session shows file
activity within the grace window, and the earliest candidate session `e`
has no subtitle file, the subtitle override is exactly the test "counter
after increment ≥ 5"; while the incremented counter is below 5 the tick
takes the waiting branch (no manifest written, no merge — finalization and
merging are blocked), and once it reaches 5 the tick takes the
finalizing-and-merge branch despite the absent subtitle, invoking the
final check on every unmerged session with enough segment files. -/
theorem c10_subtitle_retry_cap (probe : String → Option String) (exc : String → Bool)
    (subActual : String → Bool) (raw : List LiveFolder) (now : Int) (st : TickState)
    (hexc : ∀ n, exc n = false)
    (hne : (allFoldersOf raw).isEmpty = false)
    (hend : is_really_stream_ended now (allFoldersOf raw) FINAL_INACTIVE_THRESHOLD = true)
    (e : LiveFolder)
    (hearliest : minByCtime (allFoldersOf raw) = some e)
    (hsub : subActual e.name = false) :
    (subtitleStep subActual st.subtitleCount (minByCtime (allFoldersOf raw))).1
      = decide ((lookupCount st.subtitleCount e.name).getD 0 + 1 ≥ 5) ∧
    ((lookupCount st.subtitleCount e.name).getD 0 + 1 < 5 →
      (mainLoopTick probe exc subActual false raw now st).map
          (fun r => (r.branch, r.manifests, r.mergeInvoked, r.finalized))
        = Except.ok (TickBranch.waiting, [], false, [])) ∧
    (5 ≤ (lookupCount st.subtitleCount e.name).getD 0 + 1 →
      (mainLoopTick probe exc subActual false raw now st).map
          (fun r => (r.branch, r.finalized))
        = Except.ok (TickBranch.finalizing,
            ((allFoldersOf raw).filter (fun f =>
              !(has_been_merged f) && has_files_to_check f)).map (fun f => f.name))) := by
  have hss : subtitleStep subActual st.subtitleCount (some e)
      = (decide ((lookupCount st.subtitleCount e.name).getD 0 + 1 ≥ 5),
         setCount st.subtitleCount e.name
           ((lookupCount st.subtitleCount e.name).getD 0 + 1)) := by
    simp [subtitleStep, hsub]
  refine ⟨?_, ?_, ?_⟩
  · rw [hearliest, hss]
  · intro hlt
    have hdec : decide ((lookupCount st.subtitleCount e.name).getD 0 + 1 ≥ 5) = false := by
      simp
      omega
    simp only [mainLoopTick, hne, Bool.false_eq_true, if_false, hend,
      Bool.not_true, hearliest, hss, hdec, Bool.or_self]
    rfl
  · intro hge
    have hdec : decide ((lookupCount st.subtitleCount e.name).getD 0 + 1 ≥ 5) = true := by
      simpa using hge
    obtain ⟨acc2, hrun, hfin⟩ := finalizePass_no_exc probe exc hexc now (allFoldersOf raw)
      { fs := st.folderStates, folders := [], manifests := [], finalized := [] }
    simp only [mainLoopTick, hne, Bool.false_eq_true, if_false, hend,
      Bool.not_true, hearliest, hss, hdec, Bool.or_self, if_true, hrun]
    simp [hfin]
    rfl

/-- Witness for C10: the session of `c1raw` with its subtitle counter
already at 4 and no subtitle anywhere; the fifth check overrides the
missing subtitle and the tick runs the final check on the session. -/
theorem c10_subtitle_retry_cap_witness :
    (∀ n, excNone n = false) ∧
    (allFoldersOf c1raw).isEmpty = false ∧
    is_really_stream_ended 1000 (allFoldersOf c1raw) FINAL_INACTIVE_THRESHOLD = true ∧
    minByCtime (allFoldersOf c1raw) = some c1folder ∧
    (fun _ => false : String → Bool) c1folder.name = false ∧
    ((subtitleStep (fun _ => false) (TickState.mk [] [("250101_x", 4)] false).subtitleCount
        (minByCtime (allFoldersOf c1raw))).1
      = decide ((lookupCount (TickState.mk [] [("250101_x", 4)] false).subtitleCount
          c1folder.name).getD 0 + 1 ≥ 5) ∧
     ((lookupCount (TickState.mk [] [("250101_x", 4)] false).subtitleCount
          c1folder.name).getD 0 + 1 < 5 →
       (mainLoopTick probeAllValid excNone (fun _ => false) false c1raw 1000
          ⟨[], [("250101_x", 4)], false⟩).map
           (fun r => (r.branch, r.manifests, r.mergeInvoked, r.finalized))
         = Except.ok (TickBranch.waiting, [], false, [])) ∧
     (5 ≤ (lookupCount (TickState.mk [] [("250101_x", 4)] false).subtitleCount
          c1folder.name).getD 0 + 1 →
       (mainLoopTick probeAllValid excNone (fun _ => false) false c1raw 1000
          ⟨[], [("250101_x", 4)], false⟩).map
           (fun r => (r.branch, r.finalized))
         = Except.ok (TickBranch.finalizing,
             ((allFoldersOf c1raw).filter (fun f =>
               !(has_been_merged f) && has_files_to_check f)).map (fun f => f.name)))) :=
  ⟨fun _ => rfl, by decide, by decide, by decide, rfl,
   c10_subtitle_retry_cap probeAllValid excNone (fun _ => false) c1raw 1000
     ⟨[], [("250101_x", 4)], false⟩ (fun _ => rfl) (by decide) (by decide)
     c1folder (by decide) rfl⟩
